import Mathlib

/-!
# mapml: the geocode-then-search pipeline (`Searcher.jsx`) and its consumer (`map.jsx`)

A shallow embedding of `src/components/Searcher.jsx` and of `handleLocationSelect` in
`src/components/map.jsx`.

Modelling decisions.

* An `async` function is a function from a `World` to a completion (`Except Exn α`: the promise
  fulfils or rejects) and the world afterwards.  The world holds the provider's own state, the
  list of HTTP requests issued so far and the console.  The provider is an arbitrary state
  machine, so two identical requests may be answered differently.
* `fetch` followed by `response.json()` is one provider step whose answer is `Fetched`: the
  transport fails, the body is not JSON, or a JSON body is obtained.
* Numbers are exact rationals (no rounding).  Coordinates taken from a geocoding body are typed
  as pairs of numbers because the code does arithmetic on them; the body of a place search is
  arbitrary JSON, because the code only reads and copies its members.
* JavaScript strings are Lean strings; `split(',')` and `trim()` are defined on their characters.
-/

namespace Mapml

/-! ## JavaScript values, exceptions, console -/

/-- JSON values as delivered by `response.json()`, plus `undefined` for a missing member. -/
inductive JVal where
  | undefined
  | null
  | bool (b : Bool)
  | num (q : ℚ)
  | str (s : String)
  | arr (items : List JVal)
  | obj (fields : List (String × JVal))

/-- Exceptions the pipeline can meet. -/
inductive Exn where
  | network
  | syntaxError
  | typeError
  | error (message : String)
  deriving DecidableEq, Repr

/-- Member access `v.key` for the keys the code reads (`features`, `id`, `text`, `place_name`,
`center`, `properties`, `category`): a `TypeError` on `undefined` and `null`, the own member of an
object (the first binding of the key), `undefined` otherwise. -/
def JVal.get : JVal → String → Except Exn JVal
  | .undefined, _ => .error .typeError
  | .null, _ => .error .typeError
  | .obj fields, key => .ok ((fields.lookup key).getD .undefined)
  | _, _ => .ok .undefined

/-- One line of the console. -/
inductive LogEntry where
  | error (text : String) (cause : Option Exn)
  | log (data : JVal)

/-! ## Strings: `split(',')`, `trim()`, template literals -/

/-- The characters `String.prototype.trim` removes (WhiteSpace and LineTerminator). -/
def isWhiteSpace (c : Char) : Bool :=
  [0x09, 0x0A, 0x0B, 0x0C, 0x0D, 0x20, 0xA0, 0x1680, 0x2028, 0x2029, 0x202F, 0x205F, 0x3000,
    0xFEFF].contains c.toNat || (0x2000 ≤ c.toNat && c.toNat ≤ 0x200A)

/-- Characters of `s.trim()`. -/
def trimChars (cs : List Char) : List Char :=
  ((cs.dropWhile isWhiteSpace).reverse.dropWhile isWhiteSpace).reverse

/-- The string `s.trim()`. -/
def jsTrim (s : String) : String := String.mk (trimChars s.data)

/-- Characters of the pieces of `s.split(',')`: cut at every comma, never empty as a list. -/
def splitChars : List Char → List (List Char)
  | [] => [[]]
  | c :: cs =>
    if c = ',' then [] :: splitChars cs
    else
      match splitChars cs with
      | [] => [[c]]
      | seg :: segs => (c :: seg) :: segs

/-- The array `s.split(',')`. -/
def jsSplit (s : String) : List String := (splitChars s.data).map String.mk

/-- A value inside a template literal: `undefined` prints as the word. -/
def tpl : Option String → String
  | some s => s
  | none => "undefined"

/-! ## The provider and the world -/

/-- A coordinate `[lng, lat]`. -/
abbrev Coord := ℚ × ℚ

/-- A feature of a geocoding body; `center` may be missing. -/
structure GeoFeature where
  center : Option Coord

/-- A geocoding body; `features` is `none` when the body has no such array (an error body). -/
structure GeoData where
  features : Option (List GeoFeature)

/-- The query part of a place-search URL. -/
structure PlacesQuery where
  type : String
  bbox : List ℚ
  types : String
  limit : Nat
  deriving DecidableEq

/-- An HTTP request of the pipeline. -/
inductive Request where
  | geocoding (text : String)
  | places (query : PlacesQuery)
  deriving DecidableEq

/-- What `fetch` and then `response.json()` give. -/
inductive Fetched (α : Type) where
  | rejected
  | unparsable
  | json (data : α)

/-- The external service: any state machine answering the two kinds of request. -/
structure Provider (σ : Type) where
  geocoding : σ → String → Fetched GeoData × σ
  places : σ → PlacesQuery → Fetched JVal × σ

/-- Everything outside the pipeline that it reads or changes. -/
structure World (σ : Type) where
  provider : σ
  requests : List Request
  console : List LogEntry

/-- An asynchronous computation: a completion and the world afterwards. -/
abbrev Async (σ α : Type) := World σ → Except Exn α × World σ

/-- The statement `console.error(text, cause)`. -/
def consoleError {σ : Type} (text : String) (cause : Option Exn) (w : World σ) : World σ :=
  { w with console := w.console ++ [LogEntry.error text cause] }

/-- The statement `console.log(data)`. -/
def consoleLog {σ : Type} (data : JVal) (w : World σ) : World σ :=
  { w with console := w.console ++ [LogEntry.log data] }

/-- Sequencing `const x = await m; k x`: a rejection of `m` leaves through `k`. -/
def await {σ α β : Type} (m : Async σ α) (k : α → Async σ β) : Async σ β :=
  fun w =>
    match m w with
    | (.ok a, w1) => k a w1
    | (.error e, w1) => (.error e, w1)

/-! ## `Searcher.jsx` -/

/-- A place as built by `searchPlacesInBBox`. -/
structure Place where
  id : JVal
  name : JVal
  location : JVal
  coordinates : JVal
  type : JVal

/-- The `location` member of a result. -/
structure NgoLocation where
  name : Option String
  city : Option String
  deriving DecidableEq

/-- An element of the array `Searcher` returns; `nearbyPlaces` is an object, kept as its members
in insertion order. -/
structure NgoResult where
  name : Option String
  location : NgoLocation
  nearbyPlaces : List (String × List Place)

/-- Assignment `o[key] = value` on an object. -/
def objSet {α : Type} (o : List (String × α)) (key : String) (value : α) : List (String × α) :=
  if o.any (fun kv => kv.1 == key) then
    o.map (fun kv => if kv.1 == key then (key, value) else kv)
  else o ++ [(key, value)]

/-- The `try` block of `geocodeLocation` (lines 13-22). -/
def geocodeLocation.tryBlock {σ : Type} (p : Provider σ) (location : String) :
    Async σ (Option Coord) :=
  fun w =>
    let fetched := p.geocoding w.provider location
    let w1 : World σ :=
      { w with provider := fetched.2, requests := w.requests ++ [Request.geocoding location] }
    match fetched.1 with
    | .rejected => (.error .network, w1)
    | .unparsable => (.error .syntaxError, w1)
    | .json data =>
      match data.features with
      | none => (.error .typeError, w1)
      | some [] => (.error (.error "Location not found"), w1)
      | some (first :: _) => (.ok first.center, w1)

/-- Lines 11-27: `geocodeLocation`; `none` stands for `null` and for an `undefined` center. -/
def geocodeLocation {σ : Type} (p : Provider σ) (location : String) : Async σ (Option Coord) :=
  fun w =>
    match geocodeLocation.tryBlock p location w with
    | (.ok center, w1) => (.ok center, w1)
    | (.error error, w1) => (.ok none, consoleError "Error geocoding location:" (some error) w1)

/-- Lines 31-36: the array `bbox`. -/
def bboxOf (lng lat : ℚ) : List ℚ :=
  [lng - 0.025, lat - 0.025, lng + 0.025, lat + 0.025]

/-- Lines 46-52: the arrow function given to `map`. -/
def mapFeature (feature : JVal) : Except Exn Place := do
  let id ← feature.get "id"
  let name ← feature.get "text"
  let location ← feature.get "place_name"
  let coordinates ← feature.get "center"
  let properties ← feature.get "properties"
  let type ← properties.get "category"
  pure { id := id, name := name, location := location, coordinates := coordinates, type := type }

/-- The method `Array.prototype.map` with a callback that may throw. -/
def arrayMap (f : JVal → Except Exn Place) : List JVal → Except Exn (List Place)
  | [] => .ok []
  | x :: xs =>
    match f x with
    | .error e => .error e
    | .ok y =>
      match arrayMap f xs with
      | .error e => .error e
      | .ok ys => .ok (y :: ys)

/-- Lines 46-54: `data.features.map(...)`; calling `map` on anything but an array throws. -/
def filteredPlaces (data : JVal) : Except Exn (List Place) :=
  match data.get "features" with
  | .error e => .error e
  | .ok (.arr features) => arrayMap mapFeature features
  | .ok _ => .error .typeError

/-- The `try` block of `searchPlacesInBBox` (lines 39-54). -/
def searchPlacesInBBox.tryBlock {σ : Type} (p : Provider σ) (bbox : List ℚ) (type : String) :
    Async σ (List Place) :=
  fun w =>
    let query : PlacesQuery := { type := type, bbox := bbox, types := "poi", limit := 50 }
    let fetched := p.places w.provider query
    let w1 : World σ :=
      { w with provider := fetched.2, requests := w.requests ++ [Request.places query] }
    match fetched.1 with
    | .rejected => (.error .network, w1)
    | .unparsable => (.error .syntaxError, w1)
    | .json data =>
      match filteredPlaces data with
      | .ok places => (.ok places, consoleLog data w1)
      | .error e => (.error e, consoleLog data w1)

/-- Lines 30-59: `searchPlacesInBBox`. -/
def searchPlacesInBBox {σ : Type} (p : Provider σ) (lng lat : ℚ) (type : String) :
    Async σ (List Place) :=
  fun w =>
    match searchPlacesInBBox.tryBlock p (bboxOf lng lat) type w with
    | (.ok places, w1) => (.ok places, w1)
    | (.error error, w1) =>
      (.ok [], consoleError "Error searching places within bbox:" (some error) w1)

/-- Line 63: the array `ngo.split(',').map(str => str.trim())`. -/
def recordFields (ngo : String) : List String := (jsSplit ngo).map jsTrim

/-- Line 64: the text given to `geocodeLocation`. -/
def geocodeQuery (ngo : String) : String :=
  tpl ((recordFields ngo)[1]?) ++ ", " ++ tpl ((recordFields ngo)[2]?)

/-- Line 81: the text of the error logged for a record without coordinates. -/
def notFoundMessage (ngo : String) : String :=
  "Coordinates not found for " ++ tpl ((recordFields ngo)[0]?) ++ ", "
    ++ tpl ((recordFields ngo)[1]?) ++ ", " ++ tpl ((recordFields ngo)[2]?)

/-- Lines 63-82: the body of the `for` loop, from the array `results` to the array afterwards. -/
def Searcher.body {σ : Type} (p : Provider σ) (ngo : String) (results : List NgoResult) :
    Async σ (List NgoResult) :=
  let ngoName := (recordFields ngo)[0]?
  let location := (recordFields ngo)[1]?
  let city := (recordFields ngo)[2]?
  await (geocodeLocation p (tpl location ++ ", " ++ tpl city)) fun coordinates =>
    match coordinates with
    | some c =>
      let ngoResults : NgoResult :=
        { name := ngoName, location := { name := location, city := city }, nearbyPlaces := [] }
      await (searchPlacesInBBox p c.1 c.2 "restaurant") fun restaurants =>
        let ngoResults : NgoResult :=
          { ngoResults with
            nearbyPlaces := objSet ngoResults.nearbyPlaces "restaurants" restaurants }
        await (searchPlacesInBBox p c.1 c.2 "temple") fun religiousPlaces =>
          let ngoResults : NgoResult :=
            { ngoResults with
              nearbyPlaces := objSet ngoResults.nearbyPlaces "religious" religiousPlaces }
          fun w => (.ok (results ++ [ngoResults]), w)
    | none =>
      fun w =>
        (.ok results,
          consoleError
            ("Coordinates not found for " ++ tpl ngoName ++ ", " ++ tpl location ++ ", "
              ++ tpl city)
            none w)

/-- Lines 62-83: the `for` loop over the remaining records. -/
def Searcher.loop {σ : Type} (p : Provider σ) :
    List String → List NgoResult → Async σ (List NgoResult)
  | [], results => fun w => (.ok results, w)
  | ngo :: rest, results => await (Searcher.body p ngo results) (Searcher.loop p rest)

/-- Lines 7-85: `Searcher`. -/
def Searcher {σ : Type} (p : Provider σ) (ngoLocations : List String) :
    Async σ (List NgoResult) :=
  Searcher.loop p ngoLocations []

/-! ## `map.jsx`: `handleLocationSelect` -/

/-- A point feature of the collection; the constant members are left out. -/
structure Feature where
  coordinates : JVal
  type : String
  name : JVal
  location : JVal

/-- The suggestion the user picked. -/
structure Suggestion where
  place_name : String
  coordinates : JVal

/-- Lines 124-137 and 140-153: one `forEach` over the places of a category. -/
def pushPlaces (type : String) (places : List Place) (newFeatures : List Feature) :
    List Feature :=
  places.foldl
    (fun acc place =>
      acc ++ [{ coordinates := place.coordinates, type := type, name := place.name,
                location := place.location }])
    newFeatures

/-- Lines 120-154: `results.forEach`; reading a category that is missing throws. -/
def pushResults : List NgoResult → List Feature → Except Exn (List Feature)
  | [], newFeatures => .ok newFeatures
  | result :: rest, newFeatures =>
    match result.nearbyPlaces.lookup "restaurants" with
    | none => .error .typeError
    | some restaurants =>
      match result.nearbyPlaces.lookup "religious" with
      | none => .error .typeError
      | some religious =>
        pushResults rest (pushPlaces "religious" religious
          (pushPlaces "restaurant" restaurants newFeatures))

/-- Lines 104-154: the array `newFeatures` built from the results. -/
def buildFeatures (location : Suggestion) (results : List NgoResult) :
    Except Exn (List Feature) :=
  pushResults results
    [{ coordinates := location.coordinates, type := "main", name := JVal.str "Entered Location",
       location := JVal.str location.place_name }]

/-- Lines 92-160: `handleLocationSelect`, returning the features given to `setCirclesData`
(the calls that only move the view or the input box are left out). -/
def handleLocationSelect {σ : Type} (p : Provider σ) (location : Suggestion) :
    Async σ (List Feature) :=
  await (Searcher p ["Location, " ++ location.place_name ++ ", City"]) fun results =>
    fun w => (buildFeatures location results, w)

/-! ## Notions used in the statements -/

/-- What `geocodeLocation` hands back, read off the provider's answer. -/
def answeredCenter : Fetched GeoData → Option Coord
  | .json { features := some (first :: _) } => first.center
  | _ => none

/-- The entry pushed for a geocoded record, given what the two searches returned. -/
def resultOf (ngo : String) (restaurants religiousPlaces : List Place) : NgoResult :=
  { name := (recordFields ngo)[0]?
    location := { name := (recordFields ngo)[1]?, city := (recordFields ngo)[2]? }
    nearbyPlaces := [("restaurants", restaurants), ("religious", religiousPlaces)] }

/-- What `geocodeLocation` returns for the record `ngo` when the loop reaches it in `w`. -/
def geocodeOutcome {σ : Type} (p : Provider σ) (ngo : String) (w : World σ) :
    Option Coord :=
  match (geocodeLocation p (geocodeQuery ngo) w).1 with
  | .ok coordinates => coordinates
  | .error _ => none

/-- The outcomes of geocoding for the records of a run started in `w`, in input order: each
record is geocoded in the world the turns before it have left. -/
def geocodeOutcomes {σ : Type} (p : Provider σ) :
    List String → World σ → List (Option Coord)
  | [], _ => []
  | ngo :: rest, w => geocodeOutcome p ngo w :: geocodeOutcomes p rest (Searcher.body p ngo [] w).2

/-- The text of a geocoding request. -/
def Request.geocodingText : Request → Option String
  | .geocoding text => some text
  | .places _ => none

/-- The name and location parsed from a record. -/
def recordHeader (ngo : String) : Option String × NgoLocation :=
  ((recordFields ngo)[0]?, { name := (recordFields ngo)[1]?, city := (recordFields ngo)[2]? })

/-! ## Worked examples -/

/-- The record of the worked examples. -/
def helpingHands : String := "Helping Hands, 123 Main St, Springfield"

/-- A JSON feature of a place search with all the members the code reads. -/
def poi (id text placeName category : String) (lng lat : ℚ) : JVal :=
  JVal.obj [("id", JVal.str id), ("text", JVal.str text), ("place_name", JVal.str placeName),
    ("center", JVal.arr [JVal.num lng, JVal.num lat]),
    ("properties", JVal.obj [("category", JVal.str category)])]

/-- A provider without state: geocoding finds `[10, 20]`, the search for restaurants finds two
places, every other search finds none. -/
def exampleProvider : Provider Unit where
  geocoding := fun s _ => (Fetched.json { features := some [{ center := some (10, 20) }] }, s)
  places := fun s query =>
    (if query.type = "restaurant" then
        Fetched.json (JVal.obj [("features", JVal.arr
          [poi "poi.1" "Diner" "Diner, 1 Main St" "restaurant" 10 20,
           poi "poi.2" "Cafe" "Cafe, 2 Main St" "restaurant, cafe" 10.01 20.01])])
      else Fetched.json (JVal.obj [("features", JVal.arr [])]), s)

/-- A provider without state whose geocoder finds nothing. -/
def noMatchProvider : Provider Unit where
  geocoding := fun s _ => (Fetched.json { features := some [] }, s)
  places := fun s _ => (Fetched.json (JVal.obj [("features", JVal.arr [])]), s)

/-- A world in which nothing has happened yet. -/
def emptyWorld : World Unit := { provider := (), requests := [], console := [] }

/-- The own member `key` of a JSON object, if it has one. -/
def JVal.member : JVal → String → Option JVal
  | .obj fields, key => fields.lookup key
  | _, _ => none

/-- The number of features in the body of a place search (zero when there is no such array). -/
def featureCount : Fetched JVal → Nat
  | .json data =>
    match data.member "features" with
    | some (.arr features) => features.length
    | _ => 0
  | _ => 0

/-- A provider without state whose geocoder finds `[10, 20]`, whose search for restaurants sends
a feature without `properties`, and whose other searches cannot be reached. -/
def brokenSearchProvider : Provider Unit where
  geocoding := fun s _ => (Fetched.json { features := some [{ center := some (10, 20) }] }, s)
  places := fun s query =>
    (if query.type = "restaurant" then
        Fetched.json (JVal.obj [("features", JVal.arr [JVal.obj [("id", JVal.str "poi.1")]])])
      else Fetched.rejected, s)

/-- A provider without state that answers every place search with 51 features, whatever the
`limit` of the request. -/
def crowdedProvider : Provider Unit where
  geocoding := fun s _ => (Fetched.json { features := some [{ center := some (10, 20) }] }, s)
  places := fun s _ =>
    (Fetched.json (JVal.obj [("features", JVal.arr
      (List.replicate 51 (poi "poi.1" "Diner" "Diner, 1 Main St" "restaurant" 10 20)))]), s)

/-- The categories of lines 69-75, each as the key it has in `nearbyPlaces` and the word it is
searched with. -/
def categories : List (String × String) := [("restaurants", "restaurant"), ("religious", "temple")]

/-- The number of places in the `nearbyPlaces` of a result, all categories together. -/
def placeCount (r : NgoResult) : Nat := (r.nearbyPlaces.map fun kv => kv.2.length).sum

/-- The suggestion picked in the worked examples of `handleLocationSelect`. -/
def mainStreet : Suggestion :=
  { place_name := "123 Main St, Springfield", coordinates := JVal.arr [JVal.num 10, JVal.num 20] }

/-- Whether a request is a place search for the word `type`. -/
def Request.isPlacesOf (type : String) : Request → Bool
  | .places query => query.type == type
  | .geocoding _ => false

/-- The word a place search asks for. -/
def Request.placesType : Request → Option String
  | .places query => some query.type
  | .geocoding _ => none

/-- The feature pushed first, for the place the user picked (lines 107-118). -/
def mainFeature (location : Suggestion) : Feature :=
  { coordinates := location.coordinates, type := "main", name := JVal.str "Entered Location",
    location := JVal.str location.place_name }

/-- The members of a feature: coordinates, tag, name, location. -/
def Feature.members (f : Feature) : JVal × String × JVal × JVal :=
  (f.coordinates, f.type, f.name, f.location)

/-- The members expected of the features for the places of a list of results: for each result in
turn, its restaurants tagged `restaurant`, then its religious places tagged `religious`, each
with the coordinates, name and location of the place. -/
def expectedPlaceMembers (results : List NgoResult) : List (JVal × String × JVal × JVal) :=
  results.flatMap fun r =>
    (((r.nearbyPlaces.lookup "restaurants").getD []).map fun place =>
        (place.coordinates, "restaurant", place.name, place.location))
      ++ (((r.nearbyPlaces.lookup "religious").getD []).map fun place =>
        (place.coordinates, "religious", place.name, place.location))

/-- Whether a feature is tagged `main`. -/
def Feature.isMain (f : Feature) : Bool := f.type == "main"

/-- The feature pushed for `place` in a `forEach` over the places of the tag `type`. -/
def taggedFeature (type : String) (place : Place) : Feature :=
  { coordinates := place.coordinates, type := type, name := place.name,
    location := place.location }

/-! # Theorems -/

/-! ## Lemmas on strings -/

theorem splitChars_ne_nil (cs : List Char) : splitChars cs ≠ [] := by
  induction cs with
  | nil => simp [splitChars]
  | cons c cs ih =>
    unfold splitChars
    split
    · simp
    · split <;> simp

theorem splitChars_of_no_comma (seg : List Char) (h : ',' ∉ seg) : splitChars seg = [seg] := by
  induction seg with
  | nil => rfl
  | cons c cs ih =>
    have hc : c ≠ ',' := fun e => h (by simp [e])
    have hcs : ',' ∉ cs := fun e => h (by simp [e])
    simp [splitChars, hc, ih hcs]

theorem splitChars_append_comma (seg rest : List Char) (h : ',' ∉ seg) :
    splitChars (seg ++ ',' :: rest) = seg :: splitChars rest := by
  induction seg with
  | nil => simp [splitChars]
  | cons c cs ih =>
    have hc : c ≠ ',' := fun e => h (by simp [e])
    have hcs : ',' ∉ cs := fun e => h (by simp [e])
    simp [splitChars, hc, ih hcs]

/-- A record of three comma-free fields, possibly followed by a comma and anything. -/
theorem recordFields_three (a b c tail : String) (ha : ',' ∉ a.data) (hb : ',' ∉ b.data)
    (hc : ',' ∉ c.data) (ht : tail = "" ∨ ∃ t : String, tail = "," ++ t) :
    ∃ more, recordFields (a ++ "," ++ b ++ "," ++ c ++ tail)
      = jsTrim a :: jsTrim b :: jsTrim c :: more := by
  have hcomma : (",".data : List Char) = [','] := rfl
  rcases ht with rfl | ⟨t, rfl⟩
  · refine ⟨[], ?_⟩
    simp only [recordFields, jsSplit, String.data_append, hcomma, List.append_assoc,
      List.singleton_append, String.append_empty, List.cons_append, List.nil_append]
    rw [splitChars_append_comma _ _ ha, splitChars_append_comma _ _ hb,
      splitChars_of_no_comma _ hc]
    rfl
  · refine ⟨(jsSplit t).map jsTrim, ?_⟩
    simp only [recordFields, jsSplit, String.data_append, hcomma, List.append_assoc,
      List.singleton_append, List.cons_append, List.nil_append]
    rw [splitChars_append_comma _ _ ha, splitChars_append_comma _ _ hb,
      splitChars_append_comma _ _ hc]
    rfl

/-! ## Lemmas on the two provider calls -/

section calls
variable {σ : Type} (p : Provider σ)

theorem geocodeLocation_fst (location : String) (w : World σ) :
    (geocodeLocation p location w).1 = .ok (answeredCenter (p.geocoding w.provider location).1) := by
  unfold geocodeLocation geocodeLocation.tryBlock
  rcases h : (p.geocoding w.provider location).1 with _ | _ | ⟨⟨_ | _ | ⟨first, tl⟩⟩⟩ <;>
    simp [h, answeredCenter]

theorem geocodeLocation_requests (location : String) (w : World σ) :
    (geocodeLocation p location w).2.requests = w.requests ++ [Request.geocoding location] := by
  unfold geocodeLocation geocodeLocation.tryBlock
  rcases h : (p.geocoding w.provider location).1 with _ | _ | ⟨⟨_ | _ | ⟨first, tl⟩⟩⟩ <;>
    simp [h, consoleError]

theorem geocodeLocation_console (location : String) (w : World σ) :
    ∃ more, (geocodeLocation p location w).2.console = w.console ++ more := by
  unfold geocodeLocation geocodeLocation.tryBlock
  rcases h : (p.geocoding w.provider location).1 with _ | _ | ⟨⟨_ | _ | ⟨first, tl⟩⟩⟩ <;>
    simp [h, consoleError]

theorem searchPlacesInBBox_ok (lng lat : ℚ) (type : String) (w : World σ) :
    ∃ places, (searchPlacesInBBox p lng lat type w).1 = .ok places := by
  unfold searchPlacesInBBox searchPlacesInBBox.tryBlock
  rcases h : (p.places w.provider
      { type := type, bbox := bboxOf lng lat, types := "poi", limit := 50 }).1 with _ | _ | data
  · simp [h]
  · simp [h]
  · rcases h2 : filteredPlaces data with e | places <;> simp [h, h2]

theorem searchPlacesInBBox_requests (lng lat : ℚ) (type : String) (w : World σ) :
    (searchPlacesInBBox p lng lat type w).2.requests = w.requests ++
      [Request.places { type := type, bbox := bboxOf lng lat, types := "poi", limit := 50 }] := by
  unfold searchPlacesInBBox searchPlacesInBBox.tryBlock
  rcases h : (p.places w.provider
      { type := type, bbox := bboxOf lng lat, types := "poi", limit := 50 }).1 with _ | _ | data
  · simp [h, consoleError]
  · simp [h, consoleError]
  · rcases h2 : filteredPlaces data with e | places <;> simp [h, h2, consoleError, consoleLog]

theorem searchPlacesInBBox_console (lng lat : ℚ) (type : String) (w : World σ) :
    ∃ more, (searchPlacesInBBox p lng lat type w).2.console = w.console ++ more := by
  unfold searchPlacesInBBox searchPlacesInBBox.tryBlock
  rcases h : (p.places w.provider
      { type := type, bbox := bboxOf lng lat, types := "poi", limit := 50 }).1 with _ | _ | data
  · simp [h, consoleError]
  · simp [h, consoleError]
  · rcases h2 : filteredPlaces data with e | places <;> simp [h, h2, consoleError, consoleLog]

end calls

/-! ## Lemmas on the loop -/

section loop
variable {σ : Type} (p : Provider σ)

theorem body_of_none (ngo : String) (results : List NgoResult) (w : World σ)
    (h : (geocodeLocation p (geocodeQuery ngo) w).1 = .ok none) :
    Searcher.body p ngo results w
      = (.ok results,
          consoleError (notFoundMessage ngo) none (geocodeLocation p (geocodeQuery ngo) w).2) := by
  unfold Searcher.body await
  unfold geocodeQuery at h ⊢
  generalize geocodeLocation p
    (tpl ((recordFields ngo)[1]?) ++ ", " ++ tpl ((recordFields ngo)[2]?)) w = G at h ⊢
  obtain ⟨gr, gw⟩ := G
  simp only at h
  subst h
  rfl

theorem body_of_some (ngo : String) (results : List NgoResult) (w : World σ) (c : Coord)
    (h : (geocodeLocation p (geocodeQuery ngo) w).1 = .ok (some c)) :
    ∃ restaurants religiousPlaces,
      (searchPlacesInBBox p c.1 c.2 "restaurant" (geocodeLocation p (geocodeQuery ngo) w).2).1
        = .ok restaurants ∧
      (searchPlacesInBBox p c.1 c.2 "temple"
        (searchPlacesInBBox p c.1 c.2 "restaurant" (geocodeLocation p (geocodeQuery ngo) w).2).2).1
        = .ok religiousPlaces ∧
      Searcher.body p ngo results w
        = (.ok (results ++ [resultOf ngo restaurants religiousPlaces]),
            (searchPlacesInBBox p c.1 c.2 "temple"
              (searchPlacesInBBox p c.1 c.2 "restaurant"
                (geocodeLocation p (geocodeQuery ngo) w).2).2).2) := by
  obtain ⟨rs, hrs⟩ := searchPlacesInBBox_ok p c.1 c.2 "restaurant"
    (geocodeLocation p (geocodeQuery ngo) w).2
  obtain ⟨ts, hts⟩ := searchPlacesInBBox_ok p c.1 c.2 "temple"
    (searchPlacesInBBox p c.1 c.2 "restaurant" (geocodeLocation p (geocodeQuery ngo) w).2).2
  refine ⟨rs, ts, hrs, hts, ?_⟩
  unfold Searcher.body await
  unfold geocodeQuery at h hrs hts ⊢
  generalize geocodeLocation p
    (tpl ((recordFields ngo)[1]?) ++ ", " ++ tpl ((recordFields ngo)[2]?)) w = G at h hrs hts ⊢
  obtain ⟨gr, gw⟩ := G
  simp only at h hrs hts ⊢
  subst h
  rcases hS : searchPlacesInBBox p c.1 c.2 "restaurant" gw with ⟨sr, sw⟩
  rw [hS] at hrs hts
  simp only at hrs hts
  subst hrs
  rcases hT : searchPlacesInBBox p c.1 c.2 "temple" sw with ⟨tr, tw⟩
  rw [hT] at hts
  simp only at hts
  subst hts
  have hS2 : searchPlacesInBBox p c.1 c.2 "restaurant" gw = (.ok rs, sw) := hS
  have hT2 : searchPlacesInBBox p c.1 c.2 "temple" sw = (.ok ts, tw) := hT
  simp only [hS2, hT2]
  rfl

/-- One turn of the loop fulfils, appends what it emits, and the world afterwards does not depend
on the array it was given. -/
theorem body_appends (ngo : String) (w : World σ) :
    ∃ emitted, ∀ results,
      Searcher.body p ngo results w = (.ok (results ++ emitted), (Searcher.body p ngo [] w).2) := by
  have hg := geocodeLocation_fst p (geocodeQuery ngo) w
  cases hc : answeredCenter (p.geocoding w.provider (geocodeQuery ngo)).1 with
  | none =>
    rw [hc] at hg
    refine ⟨[], fun results => ?_⟩
    rw [body_of_none p ngo results w hg, body_of_none p ngo [] w hg]
    simp
  | some c =>
    rw [hc] at hg
    obtain ⟨rs, ts, h1, h2, -⟩ := body_of_some p ngo [] w c hg
    refine ⟨[resultOf ngo rs ts], fun results => ?_⟩
    obtain ⟨rs1, ts1, h3, h4, h5⟩ := body_of_some p ngo results w c hg
    obtain ⟨rs2, ts2, h6, h7, h8⟩ := body_of_some p ngo [] w c hg
    rw [h1] at h3 h6
    rw [h2] at h4 h7
    cases h3; cases h4; cases h6; cases h7
    rw [h5, h8]

theorem loop_appends (recs : List String) (w : World σ) :
    ∃ emitted, ∀ results,
      Searcher.loop p recs results w = (.ok (results ++ emitted), (Searcher.loop p recs [] w).2) := by
  induction recs generalizing w with
  | nil => exact ⟨[], fun results => by simp [Searcher.loop]⟩
  | cons ngo rest ih =>
    obtain ⟨e1, h1⟩ := body_appends p ngo w
    obtain ⟨e2, h2⟩ := ih (Searcher.body p ngo [] w).2
    refine ⟨e1 ++ e2, fun results => ?_⟩
    have h1n := h1 []
    simp only [List.nil_append] at h1n
    rw [Searcher.loop, await, h1 results]
    simp only
    rw [h2 (results ++ e1), Searcher.loop, await, h1n]
    simp only [List.append_assoc]
    rw [h2 e1]

end loop

section run
variable {σ : Type} (p : Provider σ)

theorem geocodeOutcome_eq (ngo : String) (w : World σ) :
    (geocodeLocation p (geocodeQuery ngo) w).1 = .ok (geocodeOutcome p ngo w) := by
  unfold geocodeOutcome
  rw [geocodeLocation_fst]

theorem body_spec (ngo : String) (w : World σ) :
    ∃ emitted more,
      (∀ results, Searcher.body p ngo results w
        = (.ok (results ++ emitted), (Searcher.body p ngo [] w).2)) ∧
      emitted.map (fun r => (r.name, r.location))
        = (if (geocodeOutcome p ngo w).isSome then [recordHeader ngo] else []) ∧
      (Searcher.body p ngo [] w).2.requests = w.requests ++ more ∧
      more.filterMap Request.geocodingText = [geocodeQuery ngo] := by
  have hg := geocodeOutcome_eq p ngo w
  cases hc : geocodeOutcome p ngo w with
  | none =>
    rw [hc] at hg
    refine ⟨[], [Request.geocoding (geocodeQuery ngo)], fun results => ?_, by simp, ?_, rfl⟩
    · rw [body_of_none p ngo results w hg, body_of_none p ngo [] w hg]
      simp
    · rw [body_of_none p ngo [] w hg]
      simp [consoleError, geocodeLocation_requests]
  | some c =>
    rw [hc] at hg
    obtain ⟨rs, ts, h1, h2, h3⟩ := body_of_some p ngo [] w c hg
    refine ⟨[resultOf ngo rs ts], [Request.geocoding (geocodeQuery ngo),
      Request.places { type := "restaurant", bbox := bboxOf c.1 c.2, types := "poi", limit := 50 },
      Request.places { type := "temple", bbox := bboxOf c.1 c.2, types := "poi", limit := 50 }],
      fun results => ?_, by simp [resultOf, recordHeader], ?_, rfl⟩
    · obtain ⟨rs1, ts1, h4, h5, h6⟩ := body_of_some p ngo results w c hg
      rw [h1] at h4
      rw [h2] at h5
      cases h4; cases h5
      rw [h6, h3]
    · rw [h3]
      simp [searchPlacesInBBox_requests, geocodeLocation_requests]

theorem loop_spec (recs : List String) (w : World σ) :
    ∃ emitted more,
      (∀ results, Searcher.loop p recs results w
        = (.ok (results ++ emitted), (Searcher.loop p recs [] w).2)) ∧
      emitted.map (fun r => (r.name, r.location))
        = ((recs.zip (geocodeOutcomes p recs w)).filter (fun x => x.2.isSome)).map
            (fun x => recordHeader x.1) ∧
      (Searcher.loop p recs [] w).2.requests = w.requests ++ more ∧
      more.filterMap Request.geocodingText = recs.map geocodeQuery := by
  induction recs generalizing w with
  | nil => exact ⟨[], [], fun results => by simp [Searcher.loop], by simp [geocodeOutcomes],
      by simp [Searcher.loop], rfl⟩
  | cons ngo rest ih =>
    obtain ⟨e1, m1, h1, hh1, hr1, hq1⟩ := body_spec p ngo w
    obtain ⟨e2, m2, h2, hh2, hr2, hq2⟩ := ih (Searcher.body p ngo [] w).2
    have h1n := h1 []
    simp only [List.nil_append] at h1n
    have hloop : ∀ results, Searcher.loop p (ngo :: rest) results w
        = (.ok (results ++ (e1 ++ e2)),
            (Searcher.loop p rest [] (Searcher.body p ngo [] w).2).2) := by
      intro results
      rw [Searcher.loop, await, h1 results]
      simp only
      rw [h2 (results ++ e1)]
      simp only [List.append_assoc]
    refine ⟨e1 ++ e2, m1 ++ m2, fun results => ?_, ?_, ?_, ?_⟩
    · rw [hloop results, hloop []]
    · rw [List.map_append, hh1, hh2]
      cases hc : geocodeOutcome p ngo w <;> simp [geocodeOutcomes, hc]
    · rw [hloop [], hr2, hr1, List.append_assoc]
    · rw [List.filterMap_append, hq1, hq2]
      rfl

theorem geocodeOutcomes_length (recs : List String) (w : World σ) :
    (geocodeOutcomes p recs w).length = recs.length := by
  induction recs generalizing w with
  | nil => rfl
  | cons ngo rest ih => simp [geocodeOutcomes, ih]

end run

theorem zip_filter_isSome_length {α β : Type} (xs : List α) (os : List (Option β))
    (h : os.length = xs.length) :
    ((xs.zip os).filter (fun x => x.2.isSome)).length = (os.filter Option.isSome).length := by
  induction xs generalizing os with
  | nil =>
    cases os with
    | nil => rfl
    | cons o os => simp at h
  | cons x xs ih =>
    cases os with
    | nil => simp at h
    | cons o os =>
      have h2 : os.length = xs.length := by simpa using h
      cases o <;> simp [List.filter_cons, ih os h2]

/-- C1. `Searcher` always returns an array; it has one entry for each record whose geocoding gave
coordinates, in the order of the input (so its length is the number of such records), and every
record is geocoded, whatever happened to the records before it. -/
theorem C1_searcher_keeps_successes_in_order {σ : Type} (p : Provider σ)
    (ngoLocations : List String) (w : World σ) :
    ∃ results more,
      (Searcher p ngoLocations w).1 = .ok results ∧
      (geocodeOutcomes p ngoLocations w).length = ngoLocations.length ∧
      results.length = ((geocodeOutcomes p ngoLocations w).filter Option.isSome).length ∧
      results.map (fun r => (r.name, r.location))
        = ((ngoLocations.zip (geocodeOutcomes p ngoLocations w)).filter
            (fun x => x.2.isSome)).map (fun x => recordHeader x.1) ∧
      (Searcher p ngoLocations w).2.requests = w.requests ++ more ∧
      more.filterMap Request.geocodingText = ngoLocations.map geocodeQuery := by
  obtain ⟨emitted, more, h1, h2, h3, h4⟩ := loop_spec p ngoLocations w
  have hrun : Searcher p ngoLocations w = (.ok emitted, (Searcher.loop p ngoLocations [] w).2) := by
    have := h1 []
    simpa [Searcher] using this
  refine ⟨emitted, more, by rw [hrun], geocodeOutcomes_length p ngoLocations w, ?_, h2, ?_, h4⟩
  · have hlen := congrArg List.length h2
    rw [List.length_map, List.length_map] at hlen
    rw [hlen]
    exact zip_filter_isSome_length _ _ (geocodeOutcomes_length p ngoLocations w)
  · rw [hrun]
    exact h3

section split
variable {σ : Type} (p : Provider σ)

theorem loop_cons (ngo : String) (rest : List String) (results : List NgoResult) (w : World σ) :
    ∃ emitted, (∀ rs, Searcher.body p ngo rs w
        = (.ok (rs ++ emitted), (Searcher.body p ngo [] w).2)) ∧
      Searcher.loop p (ngo :: rest) results w
        = Searcher.loop p rest (results ++ emitted) (Searcher.body p ngo [] w).2 := by
  obtain ⟨e1, h1⟩ := body_appends p ngo w
  refine ⟨e1, h1, ?_⟩
  rw [Searcher.loop, await, h1 results]

/-- The loop over `pre ++ post` is the loop over `post`, started from what the loop over `pre`
has pushed and in the world it has left. -/
theorem loop_split (pre post : List String) (w : World σ) :
    ∃ before, (Searcher.loop p pre [] w).1 = .ok before ∧
      ∀ results, Searcher.loop p (pre ++ post) results w
        = Searcher.loop p post (results ++ before) (Searcher.loop p pre [] w).2 := by
  induction pre generalizing w with
  | nil => exact ⟨[], rfl, fun results => by simp [Searcher.loop]⟩
  | cons ngo rest ih =>
    obtain ⟨b2, hb2, h2⟩ := ih (Searcher.body p ngo [] w).2
    obtain ⟨e1, -, hc0⟩ := loop_cons p ngo rest [] w
    obtain ⟨e2, he2⟩ := loop_appends p rest (Searcher.body p ngo [] w).2
    have hb : b2 = e2 := by
      have := he2 []
      rw [this] at hb2
      simpa using hb2.symm
    subst hb
    simp only [List.nil_append] at hc0
    refine ⟨e1 ++ b2, ?_, fun results => ?_⟩
    · rw [hc0, he2 e1]
    · obtain ⟨e1', h1', hc⟩ := loop_cons p ngo (rest ++ post) results w
      obtain ⟨e1'', h1'', _⟩ := loop_cons p ngo rest [] w
      have he : e1' = e1 := by
        obtain ⟨e, he, hce⟩ := loop_cons p ngo rest [] w
        have a1 := h1' []
        have a2 : Searcher.loop p (ngo :: rest) [] w
            = Searcher.loop p rest ([] ++ e1') (Searcher.body p ngo [] w).2 := by
          rw [Searcher.loop, await, a1]
        simp only [List.nil_append] at a2
        rw [hc0, he2 e1, he2 e1'] at a2
        simpa using a2.symm
      subst he
      rw [List.cons_append, hc, h2, hc0, he2 e1']
      simp [List.append_assoc]

end split

section console
variable {σ : Type} (p : Provider σ)

theorem body_console (ngo : String) (w : World σ) :
    ∃ more, (Searcher.body p ngo [] w).2.console = w.console ++ more := by
  have hg := geocodeOutcome_eq p ngo w
  obtain ⟨m0, hm0⟩ := geocodeLocation_console p (geocodeQuery ngo) w
  cases hc : geocodeOutcome p ngo w with
  | none =>
    rw [hc] at hg
    rw [body_of_none p ngo [] w hg]
    exact ⟨m0 ++ [LogEntry.error (notFoundMessage ngo) none], by simp [consoleError, hm0]⟩
  | some c =>
    rw [hc] at hg
    obtain ⟨rs, ts, -, -, h3⟩ := body_of_some p ngo [] w c hg
    obtain ⟨m1, hm1⟩ := searchPlacesInBBox_console p c.1 c.2 "restaurant"
      (geocodeLocation p (geocodeQuery ngo) w).2
    obtain ⟨m2, hm2⟩ := searchPlacesInBBox_console p c.1 c.2 "temple"
      (searchPlacesInBBox p c.1 c.2 "restaurant" (geocodeLocation p (geocodeQuery ngo) w).2).2
    rw [h3]
    exact ⟨m0 ++ m1 ++ m2, by simp [hm2, hm1, hm0]⟩

theorem loop_console (recs : List String) (w : World σ) :
    ∃ more, (Searcher.loop p recs [] w).2.console = w.console ++ more := by
  induction recs generalizing w with
  | nil => exact ⟨[], by simp [Searcher.loop]⟩
  | cons ngo rest ih =>
    obtain ⟨e1, -, hc⟩ := loop_cons p ngo rest [] w
    obtain ⟨e2, he2⟩ := loop_appends p rest (Searcher.body p ngo [] w).2
    obtain ⟨m1, hm1⟩ := body_console p ngo w
    obtain ⟨m2, hm2⟩ := ih (Searcher.body p ngo [] w).2
    rw [hc, he2]
    exact ⟨m1 ++ m2, by simp [hm2, hm1]⟩

/-- A run over `pre ++ ngo :: post`, cut at the turn of `ngo`. -/
theorem run_cut (pre post : List String) (ngo : String) (w : World σ) :
    ∃ before emitted after more,
      (Searcher p pre w).1 = .ok before ∧
      (∀ rs, Searcher.body p ngo rs (Searcher.loop p pre [] w).2
        = (.ok (rs ++ emitted), (Searcher.body p ngo [] (Searcher.loop p pre [] w).2).2)) ∧
      (Searcher p (pre ++ ngo :: post) w).1 = .ok (before ++ emitted ++ after) ∧
      (Searcher.loop p post [] (Searcher.body p ngo [] (Searcher.loop p pre [] w).2).2).1
        = .ok after ∧
      (Searcher p (pre ++ ngo :: post) w).2.console
        = (Searcher.body p ngo [] (Searcher.loop p pre [] w).2).2.console ++ more := by
  obtain ⟨before, hb, hsplit⟩ := loop_split p pre (ngo :: post) w
  obtain ⟨emitted, he, hc⟩ := loop_cons p ngo post ([] ++ before) (Searcher.loop p pre [] w).2
  obtain ⟨after, ha⟩ := loop_appends p post
    (Searcher.body p ngo [] (Searcher.loop p pre [] w).2).2
  obtain ⟨more, hm⟩ := loop_console p post
    (Searcher.body p ngo [] (Searcher.loop p pre [] w).2).2
  have hrun : Searcher p (pre ++ ngo :: post) w
      = (.ok (before ++ emitted ++ after),
          (Searcher.loop p post [] (Searcher.body p ngo [] (Searcher.loop p pre [] w).2).2).2) := by
    unfold Searcher
    rw [hsplit [], hc, ha]
    simp
  refine ⟨before, emitted, after, more, hb, he, by rw [hrun], by rw [ha []]; rfl, ?_⟩
  rw [hrun]
  exact hm

end console

theorem recordFields_head (ngo : String) : ∃ name, (recordFields ngo)[0]? = some name := by
  unfold recordFields jsSplit
  cases h : splitChars ngo.data with
  | nil => exact absurd h (splitChars_ne_nil _)
  | cons seg segs => exact ⟨jsTrim (String.mk seg), by simp⟩

/-- C2. A record that is geocoded gets one entry in the output, after the entries of the records
before it; its name and location are the trimmed first, second and third pieces of the record cut
at its commas, and its `nearbyPlaces` has the keys `restaurants` and `religious` and no other. -/
theorem C2_result_fields_and_keys {σ : Type} (p : Provider σ) (pre post : List String)
    (ngo : String) (w : World σ) (c : Coord)
    (hgeo : (geocodeLocation p (geocodeQuery ngo) (Searcher.loop p pre [] w).2).1
      = .ok (some c)) :
    ∃ before r after,
      (Searcher p pre w).1 = .ok before ∧
      (Searcher p (pre ++ ngo :: post) w).1 = .ok (before ++ r :: after) ∧
      r.name = ((jsSplit ngo).map jsTrim)[0]? ∧
      r.location.name = ((jsSplit ngo).map jsTrim)[1]? ∧
      r.location.city = ((jsSplit ngo).map jsTrim)[2]? ∧
      r.nearbyPlaces.map Prod.fst = ["restaurants", "religious"] ∧
      ∀ a b d tail : String, ',' ∉ a.data → ',' ∉ b.data → ',' ∉ d.data →
        (tail = "" ∨ ∃ t : String, tail = "," ++ t) → ngo = a ++ "," ++ b ++ "," ++ d ++ tail →
        r.name = some (jsTrim a) ∧
          r.location = { name := some (jsTrim b), city := some (jsTrim d) } := by
  obtain ⟨before, emitted, after, more, hb, he, hrun, -, -⟩ := run_cut p pre post ngo w
  obtain ⟨rs, ts, -, -, h3⟩ := body_of_some p ngo [] (Searcher.loop p pre [] w).2 c hgeo
  have hem : emitted = [resultOf ngo rs ts] := by
    have := he []
    rw [h3] at this
    simpa using (congrArg Prod.fst this).symm
  subst hem
  refine ⟨before, resultOf ngo rs ts, after, hb, by simpa using hrun, rfl, rfl, rfl, rfl, ?_⟩
  intro a b d tail ha hb' hd ht hngo
  obtain ⟨m, hm⟩ := recordFields_three a b d tail ha hb' hd ht
  rw [← hngo] at hm
  simp [resultOf, hm]

/-- C2, at the worked example: one record, coordinates `[10, 20]`, two restaurants, no temple. -/
theorem C2_result_fields_and_keys_witness :
    (geocodeLocation exampleProvider (geocodeQuery helpingHands)
        (Searcher.loop exampleProvider [] [] emptyWorld).2).1 = .ok (some (10, 20)) ∧
    (∃ before r after,
      (Searcher exampleProvider [] emptyWorld).1 = .ok before ∧
      (Searcher exampleProvider ([] ++ helpingHands :: []) emptyWorld).1
        = .ok (before ++ r :: after) ∧
      r.name = ((jsSplit helpingHands).map jsTrim)[0]? ∧
      r.location.name = ((jsSplit helpingHands).map jsTrim)[1]? ∧
      r.location.city = ((jsSplit helpingHands).map jsTrim)[2]? ∧
      r.nearbyPlaces.map Prod.fst = ["restaurants", "religious"] ∧
      ∀ a b d tail : String, ',' ∉ a.data → ',' ∉ b.data → ',' ∉ d.data →
        (tail = "" ∨ ∃ t : String, tail = "," ++ t) →
        helpingHands = a ++ "," ++ b ++ "," ++ d ++ tail →
        r.name = some (jsTrim a) ∧
          r.location = { name := some (jsTrim b), city := some (jsTrim d) }) ∧
    (Searcher exampleProvider [helpingHands] emptyWorld).1.toOption.map
        (fun results => results.map fun r =>
          (r.name, r.location, r.nearbyPlaces.map fun kv => (kv.1, kv.2.length)))
      = some [(some "Helping Hands", { name := some "123 Main St", city := some "Springfield" },
          [("restaurants", 2), ("religious", 0)])] :=
  ⟨rfl, C2_result_fields_and_keys exampleProvider [] [] helpingHands emptyWorld (10, 20) rfl,
    by decide⟩

/-- C3. `geocodeLocation` never throws; it gives no coordinates when the provider finds no
feature, cannot be reached or sends a body that is not JSON; and a record for which it gives no
coordinates adds no entry to the output and leaves on the console an error that starts with
`Coordinates not found for` followed by the name of the record. -/
theorem C3_failed_geocoding_skips_and_logs {σ : Type} (p : Provider σ) (pre post : List String)
    (ngo : String) (w : World σ)
    (hfail : (geocodeLocation p (geocodeQuery ngo) (Searcher.loop p pre [] w).2).1 = .ok none) :
    (∀ location (w1 : World σ), ∃ coordinates,
      (geocodeLocation p location w1).1 = .ok coordinates) ∧
    (∀ location (w1 : World σ),
      ((p.geocoding w1.provider location).1 = Fetched.rejected ∨
        (p.geocoding w1.provider location).1 = Fetched.unparsable ∨
        (p.geocoding w1.provider location).1 = Fetched.json { features := some [] }) →
      (geocodeLocation p location w1).1 = .ok none) ∧
    ∃ before after name suffix,
      (Searcher p pre w).1 = .ok before ∧
      (Searcher.loop p post [] (Searcher.body p ngo [] (Searcher.loop p pre [] w).2).2).1
        = .ok after ∧
      (Searcher p (pre ++ ngo :: post) w).1 = .ok (before ++ after) ∧
      ((jsSplit ngo).map jsTrim)[0]? = some name ∧
      LogEntry.error ("Coordinates not found for " ++ name ++ suffix) none
        ∈ (Searcher p (pre ++ ngo :: post) w).2.console := by
  refine ⟨fun location w1 => ⟨_, geocodeLocation_fst p location w1⟩, ?_, ?_⟩
  · intro location w1 h
    rw [geocodeLocation_fst]
    rcases h with h | h | h <;> rw [h] <;> rfl
  · obtain ⟨before, emitted, after, more, hb, he, hrun, ha, hcon⟩ := run_cut p pre post ngo w
    have hbody := body_of_none p ngo [] (Searcher.loop p pre [] w).2 hfail
    have hem : emitted = [] := by
      have := he []
      rw [hbody] at this
      simpa using (congrArg Prod.fst this).symm
    subst hem
    obtain ⟨name, hname⟩ := recordFields_head ngo
    refine ⟨before, after, name,
      ", " ++ tpl ((recordFields ngo)[1]?) ++ ", " ++ tpl ((recordFields ngo)[2]?),
      hb, ha, by simpa using hrun, hname, ?_⟩
    rw [hcon, hbody]
    have hmsg : notFoundMessage ngo = "Coordinates not found for " ++ name ++
        (", " ++ tpl ((recordFields ngo)[1]?) ++ ", " ++ tpl ((recordFields ngo)[2]?)) := by
      unfold notFoundMessage
      rw [hname]
      simp [tpl, String.append_assoc]
    simp [consoleError, hmsg]

/-- C3, at the worked example: the geocoder finds no feature for the one record. -/
theorem C3_failed_geocoding_skips_and_logs_witness :
    (geocodeLocation noMatchProvider (geocodeQuery helpingHands)
        (Searcher.loop noMatchProvider [] [] emptyWorld).2).1 = .ok none ∧
    ((∀ location (w1 : World Unit), ∃ coordinates,
      (geocodeLocation noMatchProvider location w1).1 = .ok coordinates) ∧
    (∀ location (w1 : World Unit),
      ((noMatchProvider.geocoding w1.provider location).1 = Fetched.rejected ∨
        (noMatchProvider.geocoding w1.provider location).1 = Fetched.unparsable ∨
        (noMatchProvider.geocoding w1.provider location).1
          = Fetched.json { features := some [] }) →
      (geocodeLocation noMatchProvider location w1).1 = .ok none) ∧
    ∃ before after name suffix,
      (Searcher noMatchProvider [] emptyWorld).1 = .ok before ∧
      (Searcher.loop noMatchProvider [] []
        (Searcher.body noMatchProvider helpingHands []
          (Searcher.loop noMatchProvider [] [] emptyWorld).2).2).1 = .ok after ∧
      (Searcher noMatchProvider ([] ++ helpingHands :: []) emptyWorld).1
        = .ok (before ++ after) ∧
      ((jsSplit helpingHands).map jsTrim)[0]? = some name ∧
      LogEntry.error ("Coordinates not found for " ++ name ++ suffix) none
        ∈ (Searcher noMatchProvider ([] ++ helpingHands :: []) emptyWorld).2.console) ∧
    (Searcher noMatchProvider [helpingHands] emptyWorld).1.toOption.map List.length = some 0 ∧
    (Searcher noMatchProvider [helpingHands] emptyWorld).2.console
      = [LogEntry.error "Error geocoding location:" (some (Exn.error "Location not found")),
         LogEntry.error ("Coordinates not found for " ++ "Helping Hands"
           ++ ", 123 Main St, Springfield") none] :=
  ⟨rfl, C3_failed_geocoding_skips_and_logs noMatchProvider [] [] helpingHands emptyWorld rfl,
    by decide, rfl⟩

/-! ## Lemmas on the mapping of features -/

theorem arrayMap_length (f : JVal → Except Exn Place) (xs : List JVal) (ys : List Place)
    (h : arrayMap f xs = .ok ys) : ys.length = xs.length := by
  induction xs generalizing ys with
  | nil =>
    simp [arrayMap] at h
    subst h
    rfl
  | cons x xs ih =>
    unfold arrayMap at h
    cases hx : f x with
    | error e => simp [hx] at h
    | ok y =>
      cases hxs : arrayMap f xs with
      | error e => simp [hx, hxs] at h
      | ok zs =>
        simp [hx, hxs] at h
        subst h
        simp [ih zs hxs]

theorem arrayMap_getElem (f : JVal → Except Exn Place) (xs : List JVal) (ys : List Place)
    (h : arrayMap f xs = .ok ys) (i : Nat) (x : JVal) (hx : xs[i]? = some x) :
    ∃ y, ys[i]? = some y ∧ f x = .ok y := by
  induction xs generalizing ys i with
  | nil => simp at hx
  | cons x0 xs ih =>
    unfold arrayMap at h
    cases hx0 : f x0 with
    | error e => simp [hx0] at h
    | ok y =>
      cases hxs : arrayMap f xs with
      | error e => simp [hx0, hxs] at h
      | ok zs =>
        simp [hx0, hxs] at h
        subst h
        cases i with
        | zero =>
          simp at hx
          subst hx
          exact ⟨y, by simp, hx0⟩
        | succ j =>
          simp at hx
          obtain ⟨y1, h1, h2⟩ := ih zs hxs j hx
          exact ⟨y1, by simpa using h1, h2⟩

theorem arrayMap_total (f : JVal → Except Exn Place) (xs : List JVal)
    (h : ∀ x ∈ xs, ∃ y, f x = .ok y) : ∃ ys, arrayMap f xs = .ok ys := by
  induction xs with
  | nil => exact ⟨[], rfl⟩
  | cons x xs ih =>
    obtain ⟨y, hy⟩ := h x (by simp)
    obtain ⟨ys, hys⟩ := ih (fun z hz => h z (by simp [hz]))
    exact ⟨y :: ys, by simp [arrayMap, hy, hys]⟩

theorem filteredPlaces_length (data : JVal) (places : List Place)
    (h : filteredPlaces data = .ok places) : places.length = featureCount (Fetched.json data) := by
  unfold filteredPlaces at h
  cases data with
  | obj fields =>
    simp only [JVal.get] at h
    simp only [featureCount, JVal.member]
    cases hl : fields.lookup "features" with
    | none => simp [hl] at h
    | some v =>
      cases v <;> simp [hl] at h
      next features => simpa using arrayMap_length _ _ _ h
  | undefined => simp [JVal.get] at h
  | null => simp [JVal.get] at h
  | bool b => simp [JVal.get] at h
  | num q => simp [JVal.get] at h
  | str s => simp [JVal.get] at h
  | arr items => simp [JVal.get] at h

section search
variable {σ : Type} (p : Provider σ)

theorem searchPlacesInBBox_of_json (lng lat : ℚ) (type : String) (w : World σ) (data : JVal)
    (places : List Place)
    (hresp : (p.places w.provider
      { type := type, bbox := bboxOf lng lat, types := "poi", limit := 50 }).1 = Fetched.json data)
    (hmap : filteredPlaces data = .ok places) :
    (searchPlacesInBBox p lng lat type w).1 = .ok places := by
  unfold searchPlacesInBBox searchPlacesInBBox.tryBlock
  simp [hresp, hmap]

theorem searchPlacesInBBox_of_failed (lng lat : ℚ) (type : String) (w : World σ)
    (hfail : (p.places w.provider
        { type := type, bbox := bboxOf lng lat, types := "poi", limit := 50 }).1
          = Fetched.rejected ∨
      (p.places w.provider
        { type := type, bbox := bboxOf lng lat, types := "poi", limit := 50 }).1
          = Fetched.unparsable ∨
      ∃ data error, (p.places w.provider
        { type := type, bbox := bboxOf lng lat, types := "poi", limit := 50 }).1
          = Fetched.json data ∧ filteredPlaces data = .error error) :
    (searchPlacesInBBox p lng lat type w).1 = .ok [] ∧
    ∃ logged error, (searchPlacesInBBox p lng lat type w).2.console
      = w.console ++ logged
        ++ [LogEntry.error "Error searching places within bbox:" (some error)] := by
  unfold searchPlacesInBBox searchPlacesInBBox.tryBlock
  rcases hfail with h | h | ⟨data, error, h, hmap⟩
  · exact ⟨by simp [h], [], Exn.network, by simp [h, consoleError]⟩
  · exact ⟨by simp [h], [], Exn.syntaxError, by simp [h, consoleError]⟩
  · exact ⟨by simp [h, hmap], [LogEntry.log data], error,
      by simp [h, hmap, consoleError, consoleLog]⟩

end search

/-- C4. `searchPlacesInBBox` never throws.  When the provider cannot be reached, sends a body that
is not JSON, or sends a body whose features cannot be mapped, it returns the empty array and the
last line it leaves on the console is the error; the record that was being searched for still gets
its entry, with the empty array under the category of that search. -/
theorem C4_failed_search_gives_empty {σ : Type} (p : Provider σ) (lng lat : ℚ) (type : String)
    (w : World σ)
    (hfail : (p.places w.provider
        { type := type, bbox := bboxOf lng lat, types := "poi", limit := 50 }).1
          = Fetched.rejected ∨
      (p.places w.provider
        { type := type, bbox := bboxOf lng lat, types := "poi", limit := 50 }).1
          = Fetched.unparsable ∨
      ∃ data error, (p.places w.provider
        { type := type, bbox := bboxOf lng lat, types := "poi", limit := 50 }).1
          = Fetched.json data ∧ filteredPlaces data = .error error) :
    (∀ lng1 lat1 type1 (w1 : World σ), ∃ places,
      (searchPlacesInBBox p lng1 lat1 type1 w1).1 = .ok places) ∧
    (searchPlacesInBBox p lng lat type w).1 = .ok [] ∧
    (∃ logged error, (searchPlacesInBBox p lng lat type w).2.console
      = w.console ++ logged
        ++ [LogEntry.error "Error searching places within bbox:" (some error)]) ∧
    ∀ (ngo : String) (results : List NgoResult) (w0 : World σ),
      (geocodeLocation p (geocodeQuery ngo) w0).1 = .ok (some (lng, lat)) →
      ∃ r, (Searcher.body p ngo results w0).1 = .ok (results ++ [r]) ∧
        (type = "restaurant" → w = (geocodeLocation p (geocodeQuery ngo) w0).2 →
          r.nearbyPlaces.lookup "restaurants" = some []) ∧
        (type = "temple" →
          w = (searchPlacesInBBox p lng lat "restaurant"
            (geocodeLocation p (geocodeQuery ngo) w0).2).2 →
          r.nearbyPlaces.lookup "religious" = some []) := by
  obtain ⟨hempty, hlog⟩ := searchPlacesInBBox_of_failed p lng lat type w hfail
  refine ⟨fun lng1 lat1 type1 w1 => searchPlacesInBBox_ok p lng1 lat1 type1 w1, hempty, hlog, ?_⟩
  intro ngo results w0 hgeo
  obtain ⟨rs, ts, h1, h2, h3⟩ := body_of_some p ngo results w0 (lng, lat) hgeo
  refine ⟨resultOf ngo rs ts, by rw [h3], ?_, ?_⟩
  · intro ht hw
    subst ht hw
    rw [hempty] at h1
    cases h1
    rfl
  · intro ht hw
    subst ht hw
    rw [hempty] at h2
    cases h2
    rfl

/-- C4, at a search for restaurants whose answer holds a feature without `properties`. -/
theorem C4_failed_search_gives_empty_witness :
    ((brokenSearchProvider.places emptyWorld.provider
        { type := "restaurant", bbox := bboxOf 10 20, types := "poi", limit := 50 }).1
          = Fetched.rejected ∨
      (brokenSearchProvider.places emptyWorld.provider
        { type := "restaurant", bbox := bboxOf 10 20, types := "poi", limit := 50 }).1
          = Fetched.unparsable ∨
      ∃ data error, (brokenSearchProvider.places emptyWorld.provider
        { type := "restaurant", bbox := bboxOf 10 20, types := "poi", limit := 50 }).1
          = Fetched.json data ∧ filteredPlaces data = .error error) ∧
    ((∀ lng1 lat1 type1 (w1 : World Unit), ∃ places,
      (searchPlacesInBBox brokenSearchProvider lng1 lat1 type1 w1).1 = .ok places) ∧
    (searchPlacesInBBox brokenSearchProvider 10 20 "restaurant" emptyWorld).1 = .ok [] ∧
    (∃ logged error,
      (searchPlacesInBBox brokenSearchProvider 10 20 "restaurant" emptyWorld).2.console
        = emptyWorld.console ++ logged
          ++ [LogEntry.error "Error searching places within bbox:" (some error)]) ∧
    ∀ (ngo : String) (results : List NgoResult) (w0 : World Unit),
      (geocodeLocation brokenSearchProvider (geocodeQuery ngo) w0).1 = .ok (some (10, 20)) →
      ∃ r, (Searcher.body brokenSearchProvider ngo results w0).1 = .ok (results ++ [r]) ∧
        ("restaurant" = "restaurant" →
          emptyWorld = (geocodeLocation brokenSearchProvider (geocodeQuery ngo) w0).2 →
          r.nearbyPlaces.lookup "restaurants" = some []) ∧
        ("restaurant" = "temple" →
          emptyWorld = (searchPlacesInBBox brokenSearchProvider 10 20 "restaurant"
            (geocodeLocation brokenSearchProvider (geocodeQuery ngo) w0).2).2 →
          r.nearbyPlaces.lookup "religious" = some [])) ∧
    (Searcher brokenSearchProvider [helpingHands] emptyWorld).1.toOption.map
        (fun results => results.map fun r =>
          (r.name, r.nearbyPlaces.map fun kv => (kv.1, kv.2.length)))
      = some [(some "Helping Hands", [("restaurants", 0), ("religious", 0)])] :=
  ⟨Or.inr (Or.inr ⟨_, Exn.typeError, rfl, rfl⟩),
    C4_failed_search_gives_empty brokenSearchProvider 10 20 "restaurant" emptyWorld
      (Or.inr (Or.inr ⟨_, Exn.typeError, rfl, rfl⟩)),
    by decide⟩

/-- C5, refuted as stated: the request asks for at most 50 features, the provider answers with
51, and `searchPlacesInBBox` returns 51 places. -/
theorem C5_counterexample :
    (searchPlacesInBBox crowdedProvider 10 20 "restaurant" emptyWorld).2.requests
      = [Request.places
          { type := "restaurant", bbox := bboxOf 10 20, types := "poi", limit := 50 }] ∧
    ∃ places, (searchPlacesInBBox crowdedProvider 10 20 "restaurant" emptyWorld).1 = .ok places ∧
      places.length = 51 ∧ ¬ places.length ≤ 50 :=
  ⟨rfl, _, rfl, by decide, by decide⟩

/-- C5, amended. For every answer of the provider, the request carries `limit=50` and
`searchPlacesInBBox` returns as many places as the answer has features, or none at all (when the
call fails): never more places than features, hence at most 50 whenever the provider keeps to the
limit. -/
theorem C5_places_bounded_by_answer {σ : Type} (p : Provider σ) (lng lat : ℚ) (type : String)
    (w : World σ) :
    (searchPlacesInBBox p lng lat type w).2.requests = w.requests ++
      [Request.places { type := type, bbox := bboxOf lng lat, types := "poi", limit := 50 }] ∧
    ∃ places, (searchPlacesInBBox p lng lat type w).1 = .ok places ∧
      places.length ≤ featureCount (p.places w.provider
        { type := type, bbox := bboxOf lng lat, types := "poi", limit := 50 }).1 ∧
      (places.length = featureCount (p.places w.provider
        { type := type, bbox := bboxOf lng lat, types := "poi", limit := 50 }).1 ∨ places = []) ∧
      (featureCount (p.places w.provider
        { type := type, bbox := bboxOf lng lat, types := "poi", limit := 50 }).1 ≤ 50 →
        places.length ≤ 50) := by
  refine ⟨searchPlacesInBBox_requests p lng lat type w, ?_⟩
  have key : ∃ places, (searchPlacesInBBox p lng lat type w).1 = .ok places ∧
      (places.length = featureCount (p.places w.provider
        { type := type, bbox := bboxOf lng lat, types := "poi", limit := 50 }).1 ∨
        places = []) := by
    rcases h : (p.places w.provider
      { type := type, bbox := bboxOf lng lat, types := "poi", limit := 50 }).1 with _ | _ | data
    · exact ⟨[], (searchPlacesInBBox_of_failed p lng lat type w (Or.inl h)).1, Or.inr rfl⟩
    · exact ⟨[], (searchPlacesInBBox_of_failed p lng lat type w (Or.inr (Or.inl h))).1,
        Or.inr rfl⟩
    · cases hmap : filteredPlaces data with
      | error e =>
        exact ⟨[], (searchPlacesInBBox_of_failed p lng lat type w
          (Or.inr (Or.inr ⟨data, e, h, hmap⟩))).1, Or.inr rfl⟩
      | ok places =>
        exact ⟨places, searchPlacesInBBox_of_json p lng lat type w data places h hmap,
          Or.inl (filteredPlaces_length data places hmap)⟩
  obtain ⟨places, h1, h2⟩ := key
  have h3 : places.length ≤ featureCount (p.places w.provider
      { type := type, bbox := bboxOf lng lat, types := "poi", limit := 50 }).1 := by
    rcases h2 with h | h
    · exact le_of_eq h
    · subst h
      exact Nat.zero_le _
  exact ⟨places, h1, h3, h2, fun hlimit => le_trans h3 hlimit⟩

/-- C5, amended, at the search of the worked example that is answered with 51 features (the
result has 51 places, as many as the answer) and at the search for restaurants answered with two
features (the result has two places, within the limit). -/
theorem C5_places_bounded_by_answer_witness :
    (∃ places, (searchPlacesInBBox crowdedProvider 10 20 "restaurant" emptyWorld).1 = .ok places ∧
      places.length ≤ 51) ∧
    (∃ places, (searchPlacesInBBox exampleProvider 10 20 "restaurant" emptyWorld).1 = .ok places ∧
      places.length ≤ 50) ∧
    (searchPlacesInBBox exampleProvider 10 20 "restaurant" emptyWorld).1.toOption.map List.length
      = some 2 := by
  refine ⟨?_, ?_, by decide⟩
  · obtain ⟨-, places, h1, h2, -, -⟩ :=
      C5_places_bounded_by_answer crowdedProvider 10 20 "restaurant" emptyWorld
    exact ⟨places, h1, h2⟩
  · obtain ⟨-, places, h1, -, -, h4⟩ :=
      C5_places_bounded_by_answer exampleProvider 10 20 "restaurant" emptyWorld
    exact ⟨places, h1, h4 (by decide)⟩

theorem get_of_member (v x : JVal) (key : String) (h : v.member key = some x) :
    v.get key = .ok x := by
  cases v <;> simp [JVal.member] at h
  next fields => simp [JVal.get, h]

theorem mapFeature_of_members (feature id text placeName center properties category : JVal)
    (h1 : feature.member "id" = some id) (h2 : feature.member "text" = some text)
    (h3 : feature.member "place_name" = some placeName)
    (h4 : feature.member "center" = some center)
    (h5 : feature.member "properties" = some properties)
    (h6 : properties.member "category" = some category) :
    mapFeature feature
      = .ok { id := id, name := text, location := placeName, coordinates := center,
              type := category } := by
  unfold mapFeature
  simp only [get_of_member _ _ _ h1, get_of_member _ _ _ h2, get_of_member _ _ _ h3,
    get_of_member _ _ _ h4, get_of_member _ _ _ h5, get_of_member _ _ _ h6, bind, Except.bind,
    pure, Except.pure]

/-- C6. When the body of the answer has a `features` array and every feature has the members
`id`, `text`, `place_name`, `center` and `properties.category`, `searchPlacesInBBox` returns one
place for each feature, in the same order, and the place at position `i` carries exactly the
values of those members of the feature at position `i`. -/
theorem C6_place_mapping_lossless {σ : Type} (p : Provider σ) (lng lat : ℚ) (type : String)
    (w : World σ) (data : JVal) (features : List JVal)
    (hresp : (p.places w.provider
      { type := type, bbox := bboxOf lng lat, types := "poi", limit := 50 }).1 = Fetched.json data)
    (hfeatures : data.member "features" = some (JVal.arr features))
    (hcarry : ∀ feature ∈ features,
      (feature.member "id").isSome ∧ (feature.member "text").isSome ∧
      (feature.member "place_name").isSome ∧ (feature.member "center").isSome ∧
      ((feature.member "properties").bind fun ps => ps.member "category").isSome) :
    ∃ places, (searchPlacesInBBox p lng lat type w).1 = .ok places ∧
      places.length = features.length ∧
      ∀ (i : Nat) (feature : JVal), features[i]? = some feature →
        ∃ place, places[i]? = some place ∧
          some place.id = feature.member "id" ∧
          some place.name = feature.member "text" ∧
          some place.location = feature.member "place_name" ∧
          some place.coordinates = feature.member "center" ∧
          some place.type = (feature.member "properties").bind fun ps => ps.member "category" := by
  have hmapped : ∀ feature ∈ features, ∃ place, mapFeature feature = .ok place ∧
      some place.id = feature.member "id" ∧
      some place.name = feature.member "text" ∧
      some place.location = feature.member "place_name" ∧
      some place.coordinates = feature.member "center" ∧
      some place.type = (feature.member "properties").bind fun ps => ps.member "category" := by
    intro feature hf
    obtain ⟨h1, h2, h3, h4, h5⟩ := hcarry feature hf
    obtain ⟨id, hid⟩ := Option.isSome_iff_exists.mp h1
    obtain ⟨text, htext⟩ := Option.isSome_iff_exists.mp h2
    obtain ⟨pn, hpn⟩ := Option.isSome_iff_exists.mp h3
    obtain ⟨center, hcenter⟩ := Option.isSome_iff_exists.mp h4
    obtain ⟨category, hcat⟩ := Option.isSome_iff_exists.mp h5
    cases hps : feature.member "properties" with
    | none => simp [hps] at hcat
    | some ps =>
      rw [hps] at hcat
      simp only [Option.some_bind] at hcat
      exact ⟨_, mapFeature_of_members feature id text pn center ps category hid htext hpn
        hcenter hps hcat, by simp [hid, htext, hpn, hcenter, hcat]⟩
  obtain ⟨places, hplaces⟩ := arrayMap_total mapFeature features
    (fun x hx => (hmapped x hx).imp fun _ h => h.1)
  have hfiltered : filteredPlaces data = .ok places := by
    unfold filteredPlaces
    rw [get_of_member _ _ _ hfeatures]
    exact hplaces
  refine ⟨places, searchPlacesInBBox_of_json p lng lat type w data places hresp hfiltered,
    arrayMap_length _ _ _ hplaces, ?_⟩
  intro i feature hi
  obtain ⟨place, hp1, hp2⟩ := arrayMap_getElem _ _ _ hplaces i feature hi
  obtain ⟨place1, hq1, hq2⟩ := hmapped feature (List.getElem?_mem hi)
  rw [hp2] at hq1
  cases hq1
  exact ⟨place, hp1, hq2⟩

/-- C6, at the search for restaurants of the worked example. -/
theorem C6_place_mapping_lossless_witness :
    (exampleProvider.places emptyWorld.provider
        { type := "restaurant", bbox := bboxOf 10 20, types := "poi", limit := 50 }).1
      = Fetched.json (JVal.obj [("features", JVal.arr
          [poi "poi.1" "Diner" "Diner, 1 Main St" "restaurant" 10 20,
           poi "poi.2" "Cafe" "Cafe, 2 Main St" "restaurant, cafe" 10.01 20.01])]) ∧
    (∃ places, (searchPlacesInBBox exampleProvider 10 20 "restaurant" emptyWorld).1 = .ok places ∧
      places.length = [poi "poi.1" "Diner" "Diner, 1 Main St" "restaurant" 10 20,
           poi "poi.2" "Cafe" "Cafe, 2 Main St" "restaurant, cafe" 10.01 20.01].length ∧
      ∀ (i : Nat) (feature : JVal),
        [poi "poi.1" "Diner" "Diner, 1 Main St" "restaurant" 10 20,
           poi "poi.2" "Cafe" "Cafe, 2 Main St" "restaurant, cafe" 10.01 20.01][i]?
          = some feature →
        ∃ place, places[i]? = some place ∧
          some place.id = feature.member "id" ∧
          some place.name = feature.member "text" ∧
          some place.location = feature.member "place_name" ∧
          some place.coordinates = feature.member "center" ∧
          some place.type
            = (feature.member "properties").bind fun ps => ps.member "category") :=
  ⟨rfl, C6_place_mapping_lossless exampleProvider 10 20 "restaurant" emptyWorld _ _ rfl rfl
    (by
      intro feature hf
      simp only [List.mem_cons, List.mem_singleton, List.not_mem_nil, or_false] at hf
      rcases hf with rfl | rfl <;> exact ⟨rfl, rfl, rfl, rfl, rfl⟩)⟩

/-- C7. The search for places around `[lng, lat]` asks for the box `lng - 0.025`, `lat - 0.025`,
`lng + 0.025`, `lat + 0.025`, in this order (west, south, east, north), whose two sides both
measure `2 * 0.025`. -/
theorem C7_bounding_box {σ : Type} (p : Provider σ) (lng lat : ℚ) (type : String)
    (w : World σ) :
    (searchPlacesInBBox p lng lat type w).2.requests = w.requests ++
      [Request.places { type := type, bbox := bboxOf lng lat, types := "poi", limit := 50 }] ∧
    ∃ west south east north : ℚ,
      bboxOf lng lat = [west, south, east, north] ∧
      west = lng - 0.025 ∧ south = lat - 0.025 ∧ east = lng + 0.025 ∧ north = lat + 0.025 ∧
      east - west = 2 * 0.025 ∧ north - south = 2 * 0.025 ∧ east - west = north - south := by
  refine ⟨searchPlacesInBBox_requests p lng lat type w,
    lng - 0.025, lat - 0.025, lng + 0.025, lat + 0.025, rfl, rfl, rfl, rfl, rfl, ?_, ?_, ?_⟩ <;>
    ring

section query
variable {σ : Type} (p : Provider σ)

theorem body_requests_head (ngo : String) (results : List NgoResult) (w : World σ) :
    ∃ more, (Searcher.body p ngo results w).2.requests
      = w.requests ++ Request.geocoding (geocodeQuery ngo) :: more := by
  obtain ⟨e, he⟩ := body_appends p ngo w
  rw [he results]
  have hg := geocodeOutcome_eq p ngo w
  cases hc : geocodeOutcome p ngo w with
  | none =>
    rw [hc] at hg
    rw [body_of_none p ngo [] w hg]
    exact ⟨[], by simp [consoleError, geocodeLocation_requests]⟩
  | some c =>
    rw [hc] at hg
    obtain ⟨rs, ts, -, -, h3⟩ := body_of_some p ngo [] w c hg
    rw [h3]
    exact ⟨_, by simp [searchPlacesInBBox_requests, geocodeLocation_requests]; rfl⟩

theorem handleLocationSelect_eq (location : Suggestion) (w : World σ) :
    ∃ results, (Searcher p ["Location, " ++ location.place_name ++ ", City"] w).1 = .ok results ∧
      handleLocationSelect p location w
        = (buildFeatures location results,
            (Searcher.body p ("Location, " ++ location.place_name ++ ", City") [] w).2) := by
  obtain ⟨e, he⟩ := body_appends p ("Location, " ++ location.place_name ++ ", City") w
  have hrun : Searcher p ["Location, " ++ location.place_name ++ ", City"] w
      = (.ok e, (Searcher.body p ("Location, " ++ location.place_name ++ ", City") [] w).2) := by
    unfold Searcher
    rw [Searcher.loop, await, he []]
    rfl
  refine ⟨e, by rw [hrun], ?_⟩
  unfold handleLocationSelect await
  rw [hrun]

end query

theorem trimChars_space (cs : List Char) : trimChars (' ' :: cs) = trimChars cs := by
  have h : isWhiteSpace ' ' = true := by decide
  simp [trimChars, List.dropWhile_cons, h]

/-- C8. For a record whose first three pieces, cut at its commas, are `a`, `b` and `d` (whatever
follows the third piece), the text sent to the geocoder is `b.trim() + ", " + d.trim()`; what
follows the third piece changes nothing.  So `handleLocationSelect`, which wraps a place name
into `Location, <place name>, City`, geocodes only the first two pieces of a place name that
has commas. -/
theorem C8_geocoding_text {σ : Type} (p : Provider σ) (ngo : String) (results : List NgoResult)
    (w : World σ) (a b d tail : String) (ha : ',' ∉ a.data) (hb : ',' ∉ b.data)
    (hd : ',' ∉ d.data) (ht : tail = "" ∨ ∃ t : String, tail = "," ++ t)
    (hngo : ngo = a ++ "," ++ b ++ "," ++ d ++ tail) :
    geocodeQuery ngo = jsTrim b ++ ", " ++ jsTrim d ∧
    geocodeQuery ngo = geocodeQuery (a ++ "," ++ b ++ "," ++ d) ∧
    (∃ more, (Searcher.body p ngo results w).2.requests
      = w.requests ++ Request.geocoding (jsTrim b ++ ", " ++ jsTrim d) :: more) ∧
    ∀ (location : Suggestion) (w1 : World σ), location.place_name = b ++ "," ++ d ++ tail →
      ∃ more, (handleLocationSelect p location w1).2.requests
        = w1.requests ++ Request.geocoding (jsTrim b ++ ", " ++ jsTrim d) :: more := by
  have hq : ∀ (a1 b1 : String), ',' ∉ a1.data → ',' ∉ b1.data →
      ∀ tail1 : String, (tail1 = "" ∨ ∃ t : String, tail1 = "," ++ t) →
      geocodeQuery (a1 ++ "," ++ b1 ++ "," ++ d ++ tail1) = jsTrim b1 ++ ", " ++ jsTrim d := by
    intro a1 b1 ha1 hb1 tail1 ht1
    obtain ⟨m, hm⟩ := recordFields_three a1 b1 d tail1 ha1 hb1 hd ht1
    simp [geocodeQuery, hm, tpl]
  have h1 := hq a b ha hb tail ht
  have h2 := hq a b ha hb "" (Or.inl rfl)
  rw [String.append_empty] at h2
  rw [← hngo] at h1
  refine ⟨h1, by rw [h1, h2], ?_, ?_⟩
  · obtain ⟨more, hmore⟩ := body_requests_head p ngo results w
    exact ⟨more, by rw [hmore, h1]⟩
  · intro location w1 hpn
    obtain ⟨rs, -, hrun⟩ := handleLocationSelect_eq p location w1
    obtain ⟨more, hmore⟩ := body_requests_head p
      ("Location, " ++ location.place_name ++ ", City") [] w1
    have hrec : "Location, " ++ location.place_name ++ ", City"
        = "Location" ++ "," ++ (" " ++ b) ++ "," ++ d ++ (tail ++ ", City") := by
      rw [hpn]
      apply String.ext
      simp [String.data_append]
    have ht2 : tail ++ ", City" = "" ∨ ∃ t : String, tail ++ ", City" = "," ++ t := by
      rcases ht with rfl | ⟨t, rfl⟩
      · exact Or.inr ⟨" City", rfl⟩
      · exact Or.inr ⟨t ++ ", City", by rw [String.append_assoc]⟩
    have hb2 : ',' ∉ (" " ++ b).data := by
      simpa [String.data_append] using hb
    have h3 := hq "Location" (" " ++ b) (by decide) hb2 (tail ++ ", City") ht2
    have htrim : jsTrim (" " ++ b) = jsTrim b := by
      unfold jsTrim
      rw [String.data_append]
      exact congrArg String.mk (trimChars_space b.data)
    rw [← hrec, htrim] at h3
    exact ⟨more, by rw [hrun, hmore, h3]⟩

/-- C8, at the record of the worked example followed by a fourth piece. -/
theorem C8_geocoding_text_witness :
    (',' ∉ "Helping Hands".data ∧ ',' ∉ " 123 Main St".data ∧ ',' ∉ " Springfield".data ∧
      (", USA" = "" ∨ ∃ t : String, ", USA" = "," ++ t) ∧
      "Helping Hands, 123 Main St, Springfield, USA"
        = "Helping Hands" ++ "," ++ " 123 Main St" ++ "," ++ " Springfield" ++ ", USA") ∧
    (geocodeQuery "Helping Hands, 123 Main St, Springfield, USA"
        = jsTrim " 123 Main St" ++ ", " ++ jsTrim " Springfield" ∧
      geocodeQuery "Helping Hands, 123 Main St, Springfield, USA"
        = geocodeQuery ("Helping Hands" ++ "," ++ " 123 Main St" ++ "," ++ " Springfield") ∧
      (∃ more, (Searcher.body exampleProvider "Helping Hands, 123 Main St, Springfield, USA" []
          emptyWorld).2.requests
        = emptyWorld.requests
          ++ Request.geocoding (jsTrim " 123 Main St" ++ ", " ++ jsTrim " Springfield") :: more) ∧
      ∀ (location : Suggestion) (w1 : World Unit),
        location.place_name = " 123 Main St" ++ "," ++ " Springfield" ++ ", USA" →
        ∃ more, (handleLocationSelect exampleProvider location w1).2.requests
          = w1.requests
            ++ Request.geocoding (jsTrim " 123 Main St" ++ ", " ++ jsTrim " Springfield")
              :: more) ∧
    geocodeQuery "Helping Hands, 123 Main St, Springfield, USA" = "123 Main St, Springfield" :=
  ⟨⟨by decide, by decide, by decide, Or.inr ⟨" USA", rfl⟩, by decide⟩,
    C8_geocoding_text exampleProvider "Helping Hands, 123 Main St, Springfield, USA" []
      emptyWorld "Helping Hands" " 123 Main St" " Springfield" ", USA" (by decide) (by decide)
      (by decide) (Or.inr ⟨" USA", rfl⟩) (by decide),
    by decide⟩

/-- C9, refuted as stated: in the turn of the worked example the words searched are `restaurant`
and `temple`, the keys of `nearbyPlaces` are `restaurants` and `religious`, and no word is both
searched and used as a key. -/
theorem C9_counterexample :
    ∃ r,
      (Searcher.body exampleProvider helpingHands [] emptyWorld).1 = .ok [r] ∧
      (Searcher.body exampleProvider helpingHands [] emptyWorld).2.requests.filterMap
        Request.placesType = ["restaurant", "temple"] ∧
      r.nearbyPlaces.map Prod.fst = ["restaurants", "religious"] ∧
      ¬ ∃ k : String,
        k ∈ (Searcher.body exampleProvider helpingHands [] emptyWorld).2.requests.filterMap
          Request.placesType ∧
        k ∈ r.nearbyPlaces.map Prod.fst :=
  ⟨_, rfl, by decide, by decide, by decide⟩

/-- C9, amended. In the turn of a record geocoded to `c`, the requests issued are the geocoding
request and then exactly one place search for each category, with the word of the category
(`restaurant`, then `temple`) and the box around `c`; what each search returns is what the entry
holds under the key of that category (`restaurants` for the word `restaurant`, `religious` for
the word `temple`). -/
theorem C9_one_search_per_category {σ : Type} (p : Provider σ) (ngo : String)
    (results : List NgoResult) (w : World σ) (c : Coord)
    (hgeo : (geocodeLocation p (geocodeQuery ngo) w).1 = .ok (some c)) :
    ∃ r issued restaurants religiousPlaces,
      (Searcher.body p ngo results w).1 = .ok (results ++ [r]) ∧
      (Searcher.body p ngo results w).2.requests = w.requests ++ issued ∧
      issued = [Request.geocoding (geocodeQuery ngo),
        Request.places { type := "restaurant", bbox := bboxOf c.1 c.2, types := "poi", limit := 50 },
        Request.places { type := "temple", bbox := bboxOf c.1 c.2, types := "poi", limit := 50 }] ∧
      (∀ k ∈ categories,
        (issued.filter (Request.isPlacesOf k.2)).length = 1 ∧
        issued.count (Request.places
          { type := k.2, bbox := bboxOf c.1 c.2, types := "poi", limit := 50 }) = 1) ∧
      (searchPlacesInBBox p c.1 c.2 "restaurant" (geocodeLocation p (geocodeQuery ngo) w).2).1
        = .ok restaurants ∧
      (searchPlacesInBBox p c.1 c.2 "temple"
        (searchPlacesInBBox p c.1 c.2 "restaurant" (geocodeLocation p (geocodeQuery ngo) w).2).2).1
        = .ok religiousPlaces ∧
      r.nearbyPlaces = [("restaurants", restaurants), ("religious", religiousPlaces)] ∧
      r.nearbyPlaces.lookup "restaurants" = some restaurants ∧
      r.nearbyPlaces.lookup "religious" = some religiousPlaces := by
  obtain ⟨rs, ts, h1, h2, h3⟩ := body_of_some p ngo results w c hgeo
  refine ⟨resultOf ngo rs ts, _, rs, ts, by rw [h3], ?_, rfl, ?_, h1, h2, rfl, rfl, rfl⟩
  · rw [h3]
    simp [searchPlacesInBBox_requests, geocodeLocation_requests]
  · intro k hk
    simp only [categories, List.mem_cons, List.mem_singleton, List.not_mem_nil, or_false] at hk
    rcases hk with rfl | rfl
    · constructor
      · rfl
      · simp [List.count_cons]
    · constructor
      · rfl
      · simp [List.count_cons]

/-- C9, amended, at the worked example. -/
theorem C9_one_search_per_category_witness :
    (geocodeLocation exampleProvider (geocodeQuery helpingHands) emptyWorld).1
      = .ok (some (10, 20)) ∧
    ∃ r issued restaurants religiousPlaces,
      (Searcher.body exampleProvider helpingHands [] emptyWorld).1 = .ok ([] ++ [r]) ∧
      (Searcher.body exampleProvider helpingHands [] emptyWorld).2.requests
        = emptyWorld.requests ++ issued ∧
      issued = [Request.geocoding (geocodeQuery helpingHands),
        Request.places
          { type := "restaurant", bbox := bboxOf (10, 20).1 (10, 20).2, types := "poi",
            limit := 50 },
        Request.places
          { type := "temple", bbox := bboxOf (10, 20).1 (10, 20).2, types := "poi",
            limit := 50 }] ∧
      (∀ k ∈ categories,
        (issued.filter (Request.isPlacesOf k.2)).length = 1 ∧
        issued.count (Request.places
          { type := k.2, bbox := bboxOf (10, 20).1 (10, 20).2, types := "poi", limit := 50 })
            = 1) ∧
      (searchPlacesInBBox exampleProvider (10, 20).1 (10, 20).2 "restaurant"
        (geocodeLocation exampleProvider (geocodeQuery helpingHands) emptyWorld).2).1
        = .ok restaurants ∧
      (searchPlacesInBBox exampleProvider (10, 20).1 (10, 20).2 "temple"
        (searchPlacesInBBox exampleProvider (10, 20).1 (10, 20).2 "restaurant"
          (geocodeLocation exampleProvider (geocodeQuery helpingHands) emptyWorld).2).2).1
        = .ok religiousPlaces ∧
      r.nearbyPlaces = [("restaurants", restaurants), ("religious", religiousPlaces)] ∧
      r.nearbyPlaces.lookup "restaurants" = some restaurants ∧
      r.nearbyPlaces.lookup "religious" = some religiousPlaces :=
  ⟨rfl, C9_one_search_per_category exampleProvider helpingHands [] emptyWorld (10, 20) rfl⟩

/-! ## Lemmas on the features of the map -/

theorem pushPlaces_eq (type : String) (places : List Place) (newFeatures : List Feature) :
    pushPlaces type places newFeatures = newFeatures ++ places.map (taggedFeature type) := by
  unfold pushPlaces
  induction places generalizing newFeatures with
  | nil => simp
  | cons x xs ih => simp [List.foldl_cons, ih, taggedFeature]

theorem tagged_filter_isMain (type : String) (h : (type == "main") = false)
    (places : List Place) :
    (places.map (taggedFeature type)).filter Feature.isMain = [] ∧
    ((places.map (taggedFeature type)).filter fun f => !f.isMain).length = places.length := by
  induction places with
  | nil => simp
  | cons x xs ih =>
    have hx : (taggedFeature type x).isMain = false := h
    simp [List.filter_cons, hx, ih.1, ih.2]

theorem pushResults_counts (results : List NgoResult) (newFeatures : List Feature)
    (hshape : ∀ r ∈ results, ∃ ngo rs ts, r = resultOf ngo rs ts) :
    ∃ features, pushResults results newFeatures = .ok features ∧
      (features.filter Feature.isMain).length = (newFeatures.filter Feature.isMain).length ∧
      (features.filter fun f => !f.isMain).length
        = (newFeatures.filter fun f => !f.isMain).length + (results.map placeCount).sum ∧
      ∀ f ∈ features, f ∈ newFeatures ∨ f.type = "restaurant" ∨ f.type = "religious" := by
  induction results generalizing newFeatures with
  | nil => exact ⟨newFeatures, rfl, rfl, by simp, fun f hf => Or.inl hf⟩
  | cons r rest ih =>
    obtain ⟨ngo, rs, ts, rfl⟩ := hshape r (by simp)
    obtain ⟨features, h1, h2, h3, h4⟩ := ih
      (pushPlaces "religious" ts (pushPlaces "restaurant" rs newFeatures))
      (fun x hx => hshape x (by simp [hx]))
    have hstep : pushResults (resultOf ngo rs ts :: rest) newFeatures
        = pushResults rest
            (pushPlaces "religious" ts (pushPlaces "restaurant" rs newFeatures)) := rfl
    have hr := tagged_filter_isMain "restaurant" (by decide) rs
    have ht := tagged_filter_isMain "religious" (by decide) ts
    refine ⟨features, by rw [hstep, h1], ?_, ?_, ?_⟩
    · rw [h2, pushPlaces_eq, pushPlaces_eq]
      simp [List.filter_append, hr.1, ht.1]
    · rw [h3, pushPlaces_eq, pushPlaces_eq]
      simp only [List.filter_append, List.length_append, hr.2, ht.2, List.map_cons,
        List.sum_cons]
      simp [placeCount, resultOf]
      omega
    · intro f hf
      rcases h4 f hf with h | h | h
      · rw [pushPlaces_eq, pushPlaces_eq] at h
        simp only [List.mem_append, List.mem_map] at h
        rcases h with (h | ⟨x, -, rfl⟩) | ⟨x, -, rfl⟩
        · exact Or.inl h
        · exact Or.inr (Or.inl rfl)
        · exact Or.inr (Or.inr rfl)
      · exact Or.inr (Or.inl h)
      · exact Or.inr (Or.inr h)

theorem pushResults_members (results : List NgoResult) (newFeatures : List Feature)
    (hshape : ∀ r ∈ results, ∃ ngo rs ts, r = resultOf ngo rs ts) :
    ∃ added, pushResults results newFeatures = .ok (newFeatures ++ added) ∧
      added.map Feature.members = expectedPlaceMembers results := by
  induction results generalizing newFeatures with
  | nil => exact ⟨[], by simp [pushResults], rfl⟩
  | cons r rest ih =>
    obtain ⟨ngo, rs, ts, rfl⟩ := hshape r (by simp)
    obtain ⟨added, h1, h2⟩ := ih
      (pushPlaces "religious" ts (pushPlaces "restaurant" rs newFeatures))
      (fun x hx => hshape x (by simp [hx]))
    have hstep : pushResults (resultOf ngo rs ts :: rest) newFeatures
        = pushResults rest
            (pushPlaces "religious" ts (pushPlaces "restaurant" rs newFeatures)) := rfl
    have hl1 : (resultOf ngo rs ts).nearbyPlaces.lookup "restaurants" = some rs := rfl
    have hl2 : (resultOf ngo rs ts).nearbyPlaces.lookup "religious" = some ts := rfl
    refine ⟨rs.map (taggedFeature "restaurant") ++ ts.map (taggedFeature "religious") ++ added,
      ?_, ?_⟩
    · rw [hstep, h1, pushPlaces_eq, pushPlaces_eq]
      simp only [List.append_assoc]
    · unfold expectedPlaceMembers at h2 ⊢
      rw [List.flatMap_cons, hl1, hl2, List.map_append, List.map_append, h2]
      simp only [List.map_map, Option.getD_some]
      rfl

section shape
variable {σ : Type} (p : Provider σ)

theorem body_shape (ngo : String) (w : World σ) :
    ∃ emitted, (∀ results, Searcher.body p ngo results w
        = (.ok (results ++ emitted), (Searcher.body p ngo [] w).2)) ∧
      emitted.length ≤ 1 ∧ ∀ r ∈ emitted, ∃ ngo1 rs ts, r = resultOf ngo1 rs ts := by
  obtain ⟨e, he⟩ := body_appends p ngo w
  refine ⟨e, he, ?_⟩
  have hg := geocodeOutcome_eq p ngo w
  have h0 := he []
  cases hc : geocodeOutcome p ngo w with
  | none =>
    rw [hc] at hg
    rw [body_of_none p ngo [] w hg] at h0
    have : e = [] := by simpa using (congrArg Prod.fst h0).symm
    subst this
    simp
  | some c =>
    rw [hc] at hg
    obtain ⟨rs, ts, -, -, h3⟩ := body_of_some p ngo [] w c hg
    rw [h3] at h0
    have : e = [resultOf ngo rs ts] := by simpa using (congrArg Prod.fst h0).symm
    subst this
    exact ⟨by simp, fun r hr => ⟨ngo, rs, ts, by simpa using hr⟩⟩

theorem loop_shape (recs : List String) (w : World σ) :
    ∃ emitted, (∀ results, Searcher.loop p recs results w
        = (.ok (results ++ emitted), (Searcher.loop p recs [] w).2)) ∧
      emitted.length ≤ recs.length ∧ ∀ r ∈ emitted, ∃ ngo rs ts, r = resultOf ngo rs ts := by
  induction recs generalizing w with
  | nil => exact ⟨[], fun results => by simp [Searcher.loop], by simp, by simp⟩
  | cons ngo rest ih =>
    obtain ⟨e1, h1, hl1, hs1⟩ := body_shape p ngo w
    obtain ⟨e2, h2, hl2, hs2⟩ := ih (Searcher.body p ngo [] w).2
    have h1n := h1 []
    simp only [List.nil_append] at h1n
    have hloop : ∀ results, Searcher.loop p (ngo :: rest) results w
        = (.ok (results ++ (e1 ++ e2)),
            (Searcher.loop p rest [] (Searcher.body p ngo [] w).2).2) := by
      intro results
      rw [Searcher.loop, await, h1 results]
      simp only
      rw [h2 (results ++ e1)]
      simp only [List.append_assoc]
    refine ⟨e1 ++ e2, fun results => by rw [hloop results, hloop []], ?_, ?_⟩
    · simp only [List.length_append, List.length_cons]
      omega
    · intro r hr
      rcases List.mem_append.mp hr with h | h
      · exact hs1 r h
      · exact hs2 r h

end shape

/-- C10, refuted as stated: when the geocoder finds nothing, `Searcher` returns no entry, yet the
collection holds one feature tagged `main`. -/
theorem C10_counterexample :
    ∃ results features,
      (Searcher noMatchProvider ["Location, " ++ mainStreet.place_name ++ ", City"]
        emptyWorld).1 = .ok results ∧
      (handleLocationSelect noMatchProvider mainStreet emptyWorld).1 = .ok features ∧
      results.length = 0 ∧
      (features.filter Feature.isMain).length = 1 ∧
      (features.filter Feature.isMain).length ≠ results.length :=
  ⟨[], _, rfl, rfl, rfl, by decide, by decide⟩

/-- C10, amended. Whatever `Searcher` returns, the collection built from it is: first one feature
tagged `main`, at the coordinates of the place the user picked, named `Entered Location` and
located at its place name; then, for each entry in turn, one feature for each of its restaurants
(tagged `restaurant`) and one for each of its religious places (tagged `religious`), each with the
coordinates, name and location of the place.  So there is exactly one `main` feature whatever the
number of entries, one further feature for each place in the `nearbyPlaces` of the entries (whose
keys are `restaurants` and `religious` only), and no other tag.  `handleLocationSelect` builds
this collection from the output of `Searcher` for one record, which has at most one entry. -/
theorem C10_features_of_collection {σ : Type} (p : Provider σ) (location : Suggestion)
    (ngoLocations : List String) (w : World σ) :
    (∃ results main rest,
      (Searcher p ngoLocations w).1 = .ok results ∧
      buildFeatures location results = .ok (main :: rest) ∧
      main.coordinates = location.coordinates ∧ main.type = "main" ∧
      main.name = JVal.str "Entered Location" ∧
      main.location = JVal.str location.place_name ∧
      rest.map Feature.members = expectedPlaceMembers results ∧
      (∀ r ∈ results, r.nearbyPlaces.map Prod.fst = ["restaurants", "religious"]) ∧
      ((main :: rest).filter Feature.isMain).length = 1 ∧
      rest.length = (results.map placeCount).sum ∧
      ((main :: rest).filter fun f => !f.isMain).length = (results.map placeCount).sum ∧
      ∀ f ∈ main :: rest, f.type = "main" ∨ f.type = "restaurant" ∨ f.type = "religious") ∧
    ∃ results main rest,
      (Searcher p ["Location, " ++ location.place_name ++ ", City"] w).1 = .ok results ∧
      (handleLocationSelect p location w).1 = .ok (main :: rest) ∧
      results.length ≤ 1 ∧
      main.coordinates = location.coordinates ∧ main.type = "main" ∧
      main.name = JVal.str "Entered Location" ∧
      main.location = JVal.str location.place_name ∧
      rest.map Feature.members = expectedPlaceMembers results ∧
      (∀ r ∈ results, r.nearbyPlaces.map Prod.fst = ["restaurants", "religious"]) ∧
      ((main :: rest).filter Feature.isMain).length = 1 ∧
      rest.length = (results.map placeCount).sum ∧
      ((main :: rest).filter fun f => !f.isMain).length = (results.map placeCount).sum ∧
      ∀ f ∈ main :: rest, f.type = "main" ∨ f.type = "restaurant" ∨ f.type = "religious" := by
  have key : ∀ (recs : List String), ∃ results main rest,
      (Searcher p recs w).1 = .ok results ∧ results.length ≤ recs.length ∧
      buildFeatures location results = .ok (main :: rest) ∧
      main.coordinates = location.coordinates ∧ main.type = "main" ∧
      main.name = JVal.str "Entered Location" ∧
      main.location = JVal.str location.place_name ∧
      rest.map Feature.members = expectedPlaceMembers results ∧
      (∀ r ∈ results, r.nearbyPlaces.map Prod.fst = ["restaurants", "religious"]) ∧
      ((main :: rest).filter Feature.isMain).length = 1 ∧
      rest.length = (results.map placeCount).sum ∧
      ((main :: rest).filter fun f => !f.isMain).length = (results.map placeCount).sum ∧
      ∀ f ∈ main :: rest, f.type = "main" ∨ f.type = "restaurant" ∨ f.type = "religious" := by
    intro recs
    obtain ⟨e, he, hl, hs⟩ := loop_shape p recs w
    obtain ⟨features, h1, h2, h3, h4⟩ := pushResults_counts e [mainFeature location] hs
    obtain ⟨added, g1, g2⟩ := pushResults_members e [mainFeature location] hs
    rw [g1] at h1
    have hfeat : features = mainFeature location :: added := by
      simpa using (Except.ok.inj h1).symm
    subst hfeat
    have hnot : ((mainFeature location :: added).filter fun f => !f.isMain).length
        = (e.map placeCount).sum := by
      rw [h3]
      simp [Feature.isMain, mainFeature]
    have hmain : ((mainFeature location :: added).filter Feature.isMain).length = 1 := by
      rw [h2]
      rfl
    refine ⟨e, mainFeature location, added, ?_, hl, g1, rfl, rfl, rfl, rfl, g2, ?_, hmain, ?_,
      hnot, ?_⟩
    · have := he []
      simp only [List.nil_append] at this
      unfold Searcher
      rw [this]
    · intro r hr
      obtain ⟨ngo, rs, ts, rfl⟩ := hs r hr
      rfl
    · have hsplit := List.length_eq_length_filter_add (fun f : Feature => f.isMain)
        (l := mainFeature location :: added)
      have hm : ((mainFeature location :: added).filter fun f => f.isMain).length = 1 := hmain
      rw [hm, hnot, List.length_cons] at hsplit
      omega
    · intro f hf
      rcases h4 f hf with h | h | h
      · simp only [List.mem_singleton] at h
        subst h
        exact Or.inl rfl
      · exact Or.inr (Or.inl h)
      · exact Or.inr (Or.inr h)
  constructor
  · obtain ⟨results, main, rest, h1, -, h2⟩ := key ngoLocations
    exact ⟨results, main, rest, h1, h2⟩
  · obtain ⟨results, main, rest, h1, hl, h2, h3⟩ :=
      key ["Location, " ++ location.place_name ++ ", City"]
    obtain ⟨rs, hrs, hrun⟩ := handleLocationSelect_eq p location w
    rw [h1] at hrs
    cases hrs
    exact ⟨results, main, rest, h1, by rw [hrun]; exact h2, hl, h3⟩

end Mapml
